import Mathlib

/-!
Verification of the AI-Marksheet-Extractor extraction pipeline.

This file shallowly embeds the core logic of the repository's Python
sources — `app/services/extractor.py`, `app/services/llm_client.py`,
`app/utils/confidence.py`, with the data model of `app/models/schemas.py`
and the configured threshold of `app/config/settings.py` — and proves or
refutes the frozen specification claims about them.

Modelling conventions:
* Python/JSON values are represented by the inductive `Json`; a Python
  `None` is `Json.null` (as produced by `json.loads` for `null`, and as
  returned by `dict.get` for a missing key where the code treats both
  alike).
* Python `float` arithmetic is modelled over `ℚ`; the claims under
  verification concern order/extremal facts (caps, floors, comparisons
  against constants) that are insensitive to IEEE rounding.
* Python stdlib calls (`json.loads`, `str.strip`, `re.sub` with the two
  concrete patterns used, `float(...)`, `str(...)`) are given executable
  models restricted to ASCII text and to finite numerics, faithful on
  the inputs the claims involve.
-/

/-- Characters Python treats as whitespace in `str.strip` / regex `\s`
(ASCII fragment). -/
def isPySpace (c : Char) : Bool :=
  c = ' ' ∨ c = '\t' ∨ c = '\n' ∨ c = '\r' ∨ c = '\x0b' ∨ c = '\x0c'

/-- ASCII lower-casing of one character (model of Python `str.lower`). -/
def asciiLower (c : Char) : Char :=
  if 'A' ≤ c ∧ c ≤ 'Z' then Char.ofNat (c.toNat + 32) else c

/-- ASCII upper-casing of one character (model of Python `str.upper`). -/
def asciiUpper (c : Char) : Char :=
  if 'a' ≤ c ∧ c ≤ 'z' then Char.ofNat (c.toNat - 32) else c

def pyLowerL (cs : List Char) : List Char := cs.map asciiLower

def pyUpperL (cs : List Char) : List Char := cs.map asciiUpper

def pyLower (s : String) : String := ⟨pyLowerL s.data⟩

def pyUpper (s : String) : String := ⟨pyUpperL s.data⟩

/-- Model of Python `str.strip()` (ASCII whitespace). -/
def pyStripL (cs : List Char) : List Char :=
  ((cs.dropWhile isPySpace).reverse.dropWhile isPySpace).reverse

def pyStrip (s : String) : String := ⟨pyStripL s.data⟩

/-- `p` occurs at the start of `s`. -/
def startsWithL (s p : List Char) : Bool := s.take p.length = p

/-- `needle` occurs somewhere inside `hay` (model of Python `in`). -/
def containsSubL (hay needle : List Char) : Bool :=
  match hay with
  | [] => startsWithL [] needle
  | _ :: t => startsWithL hay needle || containsSubL t needle

/-- Python/JSON values.  `null` doubles as Python `None`. -/
inductive Json where
  | null : Json
  | bool : Bool → Json
  | int : Int → Json
  | float : ℚ → Json
  | str : String → Json
  | arr : List Json → Json
  | obj : List (String × Json) → Json

/-- Python truthiness of a value. -/
def pyTruthy : Json → Bool
  | .null => false
  | .bool b => b
  | .int n => n != 0
  | .float q => q != 0
  | .str s => s != ""
  | .arr l => !l.isEmpty
  | .obj l => !l.isEmpty

def Json.isObj : Json → Bool
  | .obj _ => true
  | _ => false

/-- `dict.get(k)`: first binding for `k` (keys are unique, see `objSet`). -/
def objGetL (entries : List (String × Json)) (k : String) : Option Json :=
  match entries with
  | [] => none
  | (k', v) :: t => if k' = k then some v else objGetL t k

/-- `dict[k] = v`: replace in place if the key exists, else append —
Python dicts keep the original insertion position on update. -/
def objSet (entries : List (String × Json)) (k : String) (v : Json) :
    List (String × Json) :=
  match entries with
  | [] => [(k, v)]
  | (k', v') :: t => if k' = k then (k, v) :: t else (k', v') :: objSet t k v

def objGetJ (j : Json) (k : String) : Option Json :=
  match j with
  | .obj entries => objGetL entries k
  | _ => none

example : pyLower "N/A" = "n/a" := by decide
example : pyStrip "  x y  " = "x y" := by decide
example : containsSubL "a 429 b".data "429".data = true := by decide
example : objSet [("a", .int 1), ("b", .int 2)] "a" (.int 9)
    = [("a", .int 9), ("b", .int 2)] := rfl

/-!
Rational arithmetic.  The standard `ℚ` operations in this toolchain are
`@[irreducible]`, which blocks kernel evaluation of concrete runs; the
pipeline's float arithmetic is therefore written with the equivalent
`mkRat`-based operations below, each with a bridge lemma to the standard
operation so that order-theoretic reasoning can use the usual lemmas.
-/

def qAdd (a b : ℚ) : ℚ := mkRat (a.num * b.den + b.num * a.den) (a.den * b.den)

def qMul (a b : ℚ) : ℚ := mkRat (a.num * b.num) (a.den * b.den)

def qNeg (a : ℚ) : ℚ := Rat.neg a

def qSub (a b : ℚ) : ℚ := qAdd a (qNeg b)

def qInv (a : ℚ) : ℚ := Rat.divInt (a.den : Int) a.num

def qDiv (a b : ℚ) : ℚ := qMul a (qInv b)

def qAbs (a : ℚ) : ℚ := if a < 0 then qNeg a else a

def qMin (a b : ℚ) : ℚ := if a ≤ b then a else b

def qMax (a b : ℚ) : ℚ := if a ≤ b then b else a

def qPow10 (k : Nat) : ℚ := mkRat ((10 : Int) ^ k) 1

def qPow10Z (e : Int) : ℚ :=
  if e < 0 then mkRat 1 (10 ^ (-e).toNat) else mkRat ((10 : Int) ^ e.toNat) 1

theorem qMul_eq (a b : ℚ) : qMul a b = a * b := by
  rw [Rat.mul_def, Rat.normalize_eq_mkRat]; rfl

theorem qAdd_eq (a b : ℚ) : qAdd a b = a + b := by
  rw [Rat.add_def, Rat.normalize_eq_mkRat]; rfl

theorem qNeg_eq (a : ℚ) : qNeg a = -a := rfl

theorem qSub_eq (a b : ℚ) : qSub a b = a - b := by
  rw [qSub, qAdd_eq, qNeg_eq, sub_eq_add_neg]

theorem qInv_eq (a : ℚ) : qInv a = a⁻¹ := by
  rw [show a⁻¹ = a.inv from rfl, Rat.inv_def]; rfl

theorem qDiv_eq (a b : ℚ) : qDiv a b = a / b := by
  rw [qDiv, qMul_eq, qInv_eq, div_eq_mul_inv]

theorem qAbs_eq (a : ℚ) : qAbs a = |a| := by
  rw [qAbs]
  split
  · rw [qNeg_eq, abs_of_neg (by assumption)]
  · rw [abs_of_nonneg (not_lt.mp (by assumption))]

theorem qMin_eq (a b : ℚ) : qMin a b = min a b := by rw [qMin, min_def]

theorem qMax_eq (a b : ℚ) : qMax a b = max a b := by rw [qMax, max_def]

theorem qPow10_eq (k : Nat) : qPow10 k = (10 : ℚ) ^ k := by
  rw [qPow10, Rat.mkRat_one]
  push_cast
  ring

def isDigitCh (c : Char) : Bool := '0' ≤ c ∧ c ≤ '9'

def natOfDigits (ds : List Char) : Nat :=
  ds.foldl (fun a c => a * 10 + (c.toNat - 48)) 0

/-- Exponent suffix of a Python float literal: empty, or `e`/`E` with an
optionally signed digit run, with nothing after it. -/
def parseExpSuffix : List Char → Option Int
  | [] => some 0
  | c :: t =>
    if c = 'e' ∨ c = 'E' then
      let esgn : Int := match t with | '-' :: _ => -1 | _ => 1
      let t2 := match t with | '-' :: u => u | '+' :: u => u | _ => t
      let ds := t2.takeWhile isDigitCh
      if ds = [] ∨ t2.dropWhile isDigitCh ≠ [] then none
      else some (esgn * (natOfDigits ds : Int))
    else none

/-- Model of Python `float(str)`: optional sign, decimal mantissa with
at least one digit, optional exponent, surrounding whitespace ignored.
(`inf`/`nan` spellings and digit underscores are not modelled; no claim
involves them.)  Returns `none` where Python raises `ValueError`. -/
def pyFloat (s : String) : Option ℚ :=
  let cs0 := pyStripL s.data
  let sgn : ℚ := match cs0 with | '-' :: _ => -1 | _ => 1
  let cs1 := match cs0 with | '-' :: t => t | '+' :: t => t | _ => cs0
  let ip := cs1.takeWhile isDigitCh
  let cs2 := cs1.dropWhile isDigitCh
  let hasDot : Bool := match cs2 with | '.' :: _ => true | _ => false
  let cs3 := match cs2 with | '.' :: t => t | _ => cs2
  let fp := if hasDot then cs3.takeWhile isDigitCh else []
  let cs4 := if hasDot then cs3.dropWhile isDigitCh else cs3
  if ip = [] ∧ fp = [] then none
  else
    match parseExpSuffix cs4 with
    | none => none
    | some e =>
        some (qMul (qMul sgn (qAdd (mkRat (natOfDigits ip) 1)
          (mkRat (natOfDigits fp) (10 ^ fp.length)))) (qPow10Z e))

/-- Model of Python `int(float)`: truncation toward zero. -/
def pyIntTrunc (q : ℚ) : Int := if q < 0 then -Rat.floor (-q) else Rat.floor q

def natReprAux : Nat → Nat → List Char
  | 0, _ => []
  | fuel + 1, n =>
      if n < 10 then [Char.ofNat (48 + n)]
      else natReprAux fuel (n / 10) ++ [Char.ofNat (48 + n % 10)]

/-- Model of Python `str` on a natural number. -/
def natRepr (n : Nat) : String := ⟨natReprAux (n + 1) n⟩

/-- Model of Python `str` on an `int`. -/
def intRepr (n : Int) : String :=
  if n < 0 then "-" ++ natRepr (-n).toNat else natRepr n.toNat

/-- Decimal rendering of a nonnegative rational whose denominator divides
a power of ten — the shape of every float the pipeline stringifies.
Mirrors Python `str` on such floats (scientific-notation output for very
large/small magnitudes is not modelled; no claim involves it). -/
def floatReprPos (q : ℚ) : String :=
  match (List.range 41).find? (fun k => (qMul q (qPow10 k)).den == 1) with
  | some 0 => natRepr q.num.toNat ++ ".0"
  | some k =>
      let m := (qMul q (qPow10 k)).num.toNat
      let ds0 := natReprAux (m + 1) m
      let ds := if ds0.length ≤ k then List.replicate (k + 1 - ds0.length) '0' ++ ds0 else ds0
      (⟨ds.take (ds.length - k)⟩ : String) ++ "." ++ (⟨ds.drop (ds.length - k)⟩ : String)
  | none => intRepr q.num ++ "/" ++ natRepr q.den

/-- Model of Python `str` on a float value (as a rational). -/
def floatRepr (q : ℚ) : String :=
  if q < 0 then "-" ++ floatReprPos (-q) else floatReprPos q

def joinCommaSep : List String → String
  | [] => ""
  | [x] => x
  | x :: t@(_ :: _) => x ++ ", " ++ joinCommaSep t

def quoteRepr (s : String) : String :=
  if s.data.contains '\'' then "\"" ++ s ++ "\"" else "'" ++ s ++ "'"

mutual
/-- Model of Python `repr` on container values (string escaping beyond
quote choice is not modelled; no claim stringifies containers with
special characters). -/
def pyReprJ : Json → String
  | .null => "None"
  | .bool true => "True"
  | .bool false => "False"
  | .int n => intRepr n
  | .float q => floatRepr q
  | .str s => quoteRepr s
  | .arr l => "[" ++ joinCommaSep (pyReprElems l) ++ "]"
  | .obj l => "\x7b" ++ joinCommaSep (pyReprEntries l) ++ "\x7d"

def pyReprElems : List Json → List String
  | [] => []
  | x :: t => pyReprJ x :: pyReprElems t

def pyReprEntries : List (String × Json) → List String
  | [] => []
  | (k, v) :: t => (quoteRepr k ++ ": " ++ pyReprJ v) :: pyReprEntries t
end

/-- Model of Python `str(x)`.  The scalar cases are spelled out directly
(rather than delegated to `pyReprJ`) so that they evaluate by kernel
reduction; containers only ever appear symbolically in the claims. -/
def pyStr : Json → String
  | .null => "None"
  | .bool true => "True"
  | .bool false => "False"
  | .int n => intRepr n
  | .float q => floatRepr q
  | .str s => s
  | .arr l => pyReprJ (.arr l)
  | .obj l => pyReprJ (.obj l)

/-- Model of Python `float(x)` on a non-`None` value, as used for the
`confidence` entry: numbers pass through, booleans coerce, strings are
parsed; `none` where Python raises `ValueError`/`TypeError`. -/
def pyFloatCoerce : Json → Option ℚ
  | .int n => some (n : ℚ)
  | .float q => some q
  | .bool b => some (if b then 1 else 0)
  | .str s => pyFloat s
  | _ => none

example : pyFloat "100" = some (mkRat 100 1) := by decide
example : pyFloat " -2.5e1 " = some (mkRat (-25) 1) := by decide
example : pyFloat "1e2" = some (mkRat 100 1) := by decide
example : pyFloat "N/A" = none := by decide
example : pyFloat "" = none := by decide
example : pyIntTrunc (mkRat (-27) 10) = -2 := by decide
example : natRepr 100 = "100" := by decide
example : floatRepr (mkRat 22 25) = "0.88" := by decide
example : floatRepr (mkRat 100 1) = "100.0" := by decide
example : pyStr (.arr [.int 1, .int 2]) = "[1, 2]" := by
  simp [pyStr, pyReprJ, pyReprElems, joinCommaSep, intRepr, natRepr, natReprAux]
example : pyStr (.null) = "None" := by decide

/-!
Model of `json.loads` (Python's strict JSON decoder): recursive-descent
parser over the character list, fuelled for termination.  Trailing
garbage is rejected, as in Python.  The non-standard `NaN`/`Infinity`
extensions are not representable over `ℚ` and are not modelled; no claim
involves them.
-/

def isJsonWs (c : Char) : Bool := c = ' ' ∨ c = '\t' ∨ c = '\n' ∨ c = '\r'

def skipJsonWs (cs : List Char) : List Char := cs.dropWhile isJsonWs

def hexVal (c : Char) : Option Nat :=
  if '0' ≤ c ∧ c ≤ '9' then some (c.toNat - 48)
  else if 'a' ≤ c ∧ c ≤ 'f' then some (c.toNat - 87)
  else if 'A' ≤ c ∧ c ≤ 'F' then some (c.toNat - 55)
  else none

/-- Body of a JSON string after the opening quote (strict mode: raw
control characters are rejected). -/
def parseJStr : Nat → List Char → List Char → Option (String × List Char)
  | 0, _, _ => none
  | f + 1, acc, cs =>
    match cs with
    | [] => none
    | '"' :: rest => some (⟨acc.reverse⟩, rest)
    | '\\' :: e :: rest =>
        match e with
        | '"' => parseJStr f ('"' :: acc) rest
        | '\\' => parseJStr f ('\\' :: acc) rest
        | '/' => parseJStr f ('/' :: acc) rest
        | 'b' => parseJStr f ('\x08' :: acc) rest
        | 'f' => parseJStr f ('\x0c' :: acc) rest
        | 'n' => parseJStr f ('\n' :: acc) rest
        | 'r' => parseJStr f ('\r' :: acc) rest
        | 't' => parseJStr f ('\t' :: acc) rest
        | 'u' =>
            match rest with
            | a :: b :: c :: d :: rest2 =>
                match hexVal a, hexVal b, hexVal c, hexVal d with
                | some ha, some hb, some hc, some hd =>
                    parseJStr f
                      (Char.ofNat (((ha * 16 + hb) * 16 + hc) * 16 + hd) :: acc) rest2
                | _, _, _, _ => none
            | _ => none
        | _ => none
    | c :: rest => if c.toNat < 32 then none else parseJStr f (c :: acc) rest

/-- A JSON number literal: integer syntax yields a Python `int`, a
fraction or exponent yields a `float`. -/
def parseJNum (cs : List Char) : Option (Json × List Char) :=
  let neg : Bool := match cs with | '-' :: _ => true | _ => false
  let cs1 := match cs with | '-' :: t => t | _ => cs
  let ip := cs1.takeWhile isDigitCh
  if ip = [] then none
  else if 1 < ip.length ∧ ip.take 1 = ['0'] then none
  else
    let cs2 := cs1.dropWhile isDigitCh
    let hasDot : Bool := match cs2 with | '.' :: _ => true | _ => false
    let fp := match cs2 with | '.' :: t => t.takeWhile isDigitCh | _ => []
    let cs3 := match cs2 with | '.' :: t => t.dropWhile isDigitCh | _ => cs2
    if hasDot ∧ fp = [] then none
    else
      let hasExp : Bool := match cs3 with | 'e' :: _ => true | 'E' :: _ => true | _ => false
      let t3 := match cs3 with | 'e' :: t => t | 'E' :: t => t | _ => cs3
      let esgn : Int := match t3 with | '-' :: _ => -1 | _ => 1
      let t4 := match t3 with | '-' :: u => u | '+' :: u => u | _ => t3
      let eds := if hasExp then t4.takeWhile isDigitCh else []
      let cs4 := if hasExp then t4.dropWhile isDigitCh else cs3
      if hasExp ∧ eds = [] then none
      else
        let mag : ℚ := qMul (qAdd (mkRat (natOfDigits ip) 1) (mkRat (natOfDigits fp) (10 ^ fp.length)))
          (qPow10Z (esgn * (natOfDigits eds : Int)))
        if hasDot ∨ hasExp then
          some (.float (if neg then qNeg mag else mag), cs4)
        else
          some (.int (if neg then -(natOfDigits ip : Int) else (natOfDigits ip : Int)), cs4)

mutual
def parseJVal : Nat → List Char → Option (Json × List Char)
  | 0, _ => none
  | f + 1, cs =>
    match cs with
    | [] => none
    | '"' :: rest => parseJStr f [] rest |>.map (fun p => (.str p.1, p.2))
    | '\x7b' :: rest => parseJObj f (skipJsonWs rest)
    | '[' :: rest => parseJArr f (skipJsonWs rest)
    | _ =>
        if startsWithL cs "true".data then some (.bool true, cs.drop 4)
        else if startsWithL cs "false".data then some (.bool false, cs.drop 5)
        else if startsWithL cs "null".data then some (.null, cs.drop 4)
        else parseJNum cs

/-- Array tail after `[` and whitespace. -/
def parseJArr : Nat → List Char → Option (Json × List Char)
  | 0, _ => none
  | f + 1, cs =>
    match cs with
    | ']' :: rest => some (.arr [], rest)
    | _ => parseJArrItems f cs []

def parseJArrItems : Nat → List Char → List Json → Option (Json × List Char)
  | 0, _, _ => none
  | f + 1, cs, acc =>
    match parseJVal f cs with
    | none => none
    | some (v, r) =>
        match skipJsonWs r with
        | ',' :: r2 => parseJArrItems f (skipJsonWs r2) (v :: acc)
        | ']' :: r2 => some (.arr (v :: acc).reverse, r2)
        | _ => none

/-- Object tail after the opening brace and whitespace.  Duplicate keys
overwrite in place, as in a Python dict. -/
def parseJObj : Nat → List Char → Option (Json × List Char)
  | 0, _ => none
  | f + 1, cs =>
    match cs with
    | '\x7d' :: rest => some (.obj [], rest)
    | _ => parseJObjItems f cs []

def parseJObjItems : Nat → List Char → List (String × Json) →
    Option (Json × List Char)
  | 0, _, _ => none
  | f + 1, cs, acc =>
    match cs with
    | '"' :: rest =>
        match parseJStr f [] rest with
        | none => none
        | some (k, r) =>
            match skipJsonWs r with
            | ':' :: r2 =>
                match parseJVal f (skipJsonWs r2) with
                | none => none
                | some (v, r3) =>
                    match skipJsonWs r3 with
                    | ',' :: r4 => parseJObjItems f (skipJsonWs r4) (objSet acc k v)
                    | '\x7d' :: r4 => some (.obj (objSet acc k v), r4)
                    | _ => none
            | _ => none
    | _ => none
end

/-- Model of Python `json.loads` on a string: parse one value with
surrounding whitespace, rejecting trailing input; `none` where Python
raises `JSONDecodeError`. -/
def jsonLoads (s : String) : Option Json :=
  match parseJVal (4 * s.data.length + 8) (skipJsonWs s.data) with
  | some (v, rest) => if skipJsonWs rest = [] then some v else none
  | none => none

example : jsonLoads "\x7b\"a\":1\x7d" = some (.obj [("a", .int 1)]) := rfl
example : jsonLoads " [1, 2.5, \"x\", true, null] "
    = some (.arr [.int 1, .float (mkRat 5 2), .str "x", .bool true, .null]) := rfl
example : jsonLoads "not json at all" = none := rfl
example : jsonLoads "\x7b\x7d" = some (.obj []) := rfl
example : jsonLoads "noise \x7b\"a\":1\x7d noise" = none := rfl
example : jsonLoads "[1, 2]" = some (.arr [.int 1, .int 2]) := rfl

/-!
Provider Gateway — `app/services/llm_client.py`, `LLMClient.extract_from_image`
(lines 45-64).  The backend call is modelled by an oracle list of
outcomes, one consumed per invocation; the quota branch sleeps 60 s and
then re-enters `extract_from_image` recursively, which is the part under
verification (real time is not modelled).
-/

inductive BackendOutcome where
  | success : Json → BackendOutcome
  | failure : String → BackendOutcome

/-- The quota/rate-limit signal test of `extract_from_image`:
`"429" in str(e) or "quota" in str(e).lower()`. -/
def isQuotaError (msg : String) : Bool :=
  containsSubL msg.data "429".data || containsSubL (pyLower msg).data "quota".data

/-- Model of `LLMClient.extract_from_image`'s retry control flow,
returning the result together with the number of backend invocations
made for one caller request. -/
def extractFromImage : List BackendOutcome → Except String Json × Nat
  | [] => (.error "no backend outcome", 0)
  | .success r :: _ => (.ok r, 1)
  | .failure msg :: rest =>
      if isQuotaError msg then
        let p := extractFromImage rest
        (p.1, p.2 + 1)
      else (.error ("Failed to extract data: " ++ msg), 1)

/-!
Response Recovery — `app/services/extractor.py`,
`MarksheetExtractor._parse_llm_response` (lines 71-131) and
`_create_fallback_structure` (lines 293-326).
-/

/-- Model of `re.sub(lit + r'\s*', '', s)` for a literal `lit`: delete
each leftmost, non-overlapping occurrence of the literal together with
its greedy trailing whitespace run. -/
def pySubLitWs (lit : List Char) : Nat → List Char → List Char
  | 0, cs => cs
  | _ + 1, [] => []
  | f + 1, c :: t =>
      if startsWithL (c :: t) lit ∧ lit ≠ [] then
        pySubLitWs lit f (((c :: t).drop lit.length).dropWhile isPySpace)
      else c :: pySubLitWs lit f t

def pySubLitWsS (lit s : String) : String :=
  ⟨pySubLitWs lit.data (s.data.length + 1) s.data⟩

/-- Strategy 3 preprocessing: strip the two markdown-fence patterns
(`'```  json\s*'` — with two spaces, as in the source — then `'```\s*'`)
and trim. -/
def cleanedContent (s : String) : String :=
  pyStrip (pySubLitWsS "```" (pySubLitWsS "```  json" s))

def firstBraceIdx (cs : List Char) : Option Nat := cs.findIdx? (· = '\x7b')

def lastRBraceIdx (cs : List Char) : Option Nat :=
  (cs.reverse.findIdx? (· = '\x7d')).map (fun k => cs.length - 1 - k)

/-- Strategy 2: the substring from the first `\x7b` to the last `\x7d`
inclusive (`content[json_start:json_end]`), when
`json_start != -1 and json_end > json_start`. -/
def boundarySub (s : String) : Option String :=
  match firstBraceIdx s.data, lastRBraceIdx s.data with
  | some i, some j => if i < j + 1 then some ⟨(s.data.take (j + 1)).drop i⟩ else none
  | _, _ => none

def isColonOrSpace (c : Char) : Bool := c = ':' ∨ isPySpace c

def isUpperAZ (c : Char) : Bool := 'A' ≤ c ∧ c ≤ 'Z'

def isUpperOrSpace (c : Char) : Bool := isUpperAZ c ∨ isPySpace c

/-- Match `lit[:\s]+([A-Z][A-Z\s]+)` anchored at the head of `cs`,
returning the capture group.  The greedy runs need no backtracking: the
separator class and `[A-Z]` are disjoint, and nothing follows the
group. -/
def matchNameAt (lit cs : List Char) : Option (List Char) :=
  if startsWithL cs lit then
    let r1 := cs.drop lit.length
    if r1.takeWhile isColonOrSpace = [] then none
    else
      match r1.dropWhile isColonOrSpace with
      | c :: rest =>
          if isUpperAZ c then
            let grp := rest.takeWhile isUpperOrSpace
            if grp = [] then none else some (c :: grp)
          else none
      | [] => none
  else none

/-- `re.search`: leftmost match of an anchored matcher. -/
def searchBy (m : List Char → Option (List Char)) : List Char → Option (List Char)
  | [] => m []
  | c :: t =>
      match m (c :: t) with
      | some g => some g
      | none => searchBy m t

/-- The pattern `[Nn]ame[:\s]+([A-Z][A-Z\s]+)` anchored at one position. -/
def matchEitherNameAt (cs : List Char) : Option (List Char) :=
  match matchNameAt "Name".data cs with
  | some g => some g
  | none => matchNameAt "name".data cs

/-- The fallback name extraction: the three regex patterns of
`_create_fallback_structure`, each searched over the whole text, first
match wins. -/
def fallbackName (cs : List Char) : Option (List Char) :=
  match searchBy matchEitherNameAt cs with
  | some g => some g
  | none =>
      match searchBy (matchNameAt "Name".data) cs with
      | some g => some g
      | none => searchBy (matchNameAt "Student".data) cs

/-- Model of `_create_fallback_structure`: the skeleton mapping, with
`candidate_details.name` populated at confidence 0.5 when a name pattern
matches (`match.group(1).strip()`). -/
def fallbackStructure (content : String) : Json :=
  let cd : List (String × Json) :=
    match fallbackName content.data with
    | some g =>
        [("name", .obj [("value", .str (pyStrip ⟨g⟩)), ("confidence", .float (mkRat 1 2))])]
    | none => []
  .obj [("candidate_details", .obj cd), ("subjects", .arr []),
        ("overall_result", .obj []), ("document_info", .obj []),
        ("raw_content", .str content)]

/-- `if not json_data` as an `Option` filter. -/
def truthyOpt (o : Option Json) : Option Json :=
  match o with
  | some v => if pyTruthy v then some v else none
  | none => none

/-- One recovery strategy step: when the value recovered so far is
falsy (`if not json_data`), try to parse the given candidate substring;
a parse failure (or no substring) keeps the previous value, mirroring
the `except JSONDecodeError: pass` arms. -/
def strategyStep (prev : Option Json) (s : Option String) : Option Json :=
  match truthyOpt prev with
  | some v => some v
  | none =>
      match s with
      | some sub =>
          match jsonLoads sub with
          | some v => some v
          | none => prev
      | none => prev

/-- Model of `_parse_llm_response` on the response text: the staged
strategies with the mutable `json_data` made explicit.  `.error` models
the `ValueError` raised for empty content; a falsy final value falls
back to the skeleton structure. -/
def parseLLMResponse (content : String) : Except Unit Json :=
  if content = "" then .error ()
  else
    let jd1 := jsonLoads content
    let jd2 := strategyStep jd1 (boundarySub content)
    let jd3 := strategyStep jd2 (boundarySub (cleanedContent content))
    .ok (match truthyOpt jd3 with
      | some v => v
      | none => fallbackStructure content)

example : boundarySub "noise \x7b\"a\":1\x7d noise" = some "\x7b\"a\":1\x7d" := rfl
example : parseLLMResponse "noise \x7b\"a\":1\x7d noise" = .ok (.obj [("a", .int 1)]) := rfl
example : parseLLMResponse "" = .error () := rfl
example : parseLLMResponse "not json at all"
    = .ok (fallbackStructure "not json at all") := rfl
example : objGetJ (fallbackStructure "not json at all") "raw_content"
    = some (.str "not json at all") := rfl
example : fallbackName "Name: JOHN DOE was here".data = some "JOHN DOE ".data := rfl

/-!
Subject Repair Engine — `app/services/extractor.py`,
`_validate_and_fix_subjects` (lines 133-197), `_infer_subject_name`
(lines 199-253), `_clean_subject_name` (lines 255-283), `_extract_value`
(lines 285-291).
-/

/-- The sentinel test `x.lower() in ['n/a', 'null', 'none', '']` used at
lines 160 and 419. -/
def isSentinel (s : String) : Bool := ["n/a", "null", "none", ""].contains (pyLower s)

/-- Model of `_extract_value`: the `value` entry of a mapping, else the
stringified value, else `''` for `None`/absent. -/
def extractValue : Option Json → String
  | none => ""
  | some j =>
      match j with
      | .obj e => pyStr (match objGetL e "value" with | some v => v | none => .str "")
      | .null => ""
      | j' => pyStr j'

/-- `re.sub(r'\s+', ' ', s.strip())`, fuelled. -/
def collapseRunsL : Nat → List Char → List Char
  | 0, cs => cs
  | _ + 1, [] => []
  | f + 1, c :: t =>
      if isPySpace c then ' ' :: collapseRunsL f (t.dropWhile isPySpace)
      else c :: collapseRunsL f t

def collapseWs (s : String) : String :=
  ⟨collapseRunsL (s.data.length + 1) (pyStripL s.data)⟩

/-- Model of Python `s.replace(old, new, 1)` for nonempty `old`: replace
the first occurrence only. -/
def replaceFirstL (s old new : List Char) : List Char :=
  match s with
  | [] => []
  | c :: t =>
      if startsWithL (c :: t) old then new ++ (c :: t).drop old.length
      else c :: replaceFirstL t old new

/-- The abbreviation-expansion table of `_clean_subject_name`, in dict
insertion order. -/
def subjectExpansions : List (String × String) :=
  [("MATH", "MATHEMATICS"), ("ENG", "ENGLISH"), ("SCI", "SCIENCE"),
   ("SOC", "SOCIAL SCIENCE"), ("PHYS", "PHYSICS"), ("CHEM", "CHEMISTRY"),
   ("BIO", "BIOLOGY"), ("HIST", "HISTORY"), ("GEO", "GEOGRAPHY"),
   ("FL", "FIRST LANGUAGE"), ("SL", "SECOND LANGUAGE")]

/-- The expansion loop: each table entry in turn tests
`cleaned.upper().startswith(abbrev)` against the current value and on
success replaces the first occurrence in the uppercased value. -/
def applyExpansions : List (String × String) → List Char → List Char
  | [], cleaned => cleaned
  | (ab, full) :: rest, cleaned =>
      if startsWithL (pyUpperL cleaned) ab.data then
        applyExpansions rest (replaceFirstL (pyUpperL cleaned) ab.data full.data)
      else applyExpansions rest cleaned

/-- Model of `_clean_subject_name`. -/
def cleanSubjectName (s : String) : String :=
  if s = "" then s
  else ⟨applyExpansions subjectExpansions (collapseWs s).data⟩

def common100Subjects : List String :=
  ["MATHEMATICS", "ENGLISH", "SCIENCE", "SOCIAL SCIENCE",
   "PHYSICS", "CHEMISTRY", "BIOLOGY", "HISTORY", "GEOGRAPHY"]

def cbseSubjects : List String :=
  ["HINDI", "ENGLISH", "MATHEMATICS", "SCIENCE", "SOCIAL SCIENCE"]

def uniSubjects : List String :=
  ["Environmental Studies", "Literature", "Core Subject", "Elective"]

/-- `self.common_subjects` from `MarksheetExtractor.__init__`. -/
def commonSubjects : List String :=
  ["MATHEMATICS", "ENGLISH", "HINDI", "SCIENCE", "SOCIAL SCIENCE",
   "PHYSICS", "CHEMISTRY", "BIOLOGY", "HISTORY", "GEOGRAPHY",
   "FIRST LANGUAGE", "SECOND LANGUAGE", "PHYSICAL SCIENCE", "LIFE SCIENCE",
   "Environmental Studies", "Indian Writing in English", "British Poetry",
   "Feminism Theory", "DRAWING", "COMPUTER SCIENCE", "ECONOMICS"]

/-- Model of `_infer_subject_name`: magnitude-based, then grade-based,
then positional inference; `none` where the source returns `None`. -/
def inferSubjectName (subject : List (String × Json)) (index : Nat) : Option String :=
  let maxMarks := extractValue (objGetL subject "max_marks")
  let grade := extractValue (objGetL subject "grade")
  let magnitude : Option String :=
    if maxMarks != "" then
      match pyFloat maxMarks with
      | some q =>
          let m := pyIntTrunc q
          if m = 200 then some "FIRST LANGUAGE"
          else if m = 100 then common100Subjects.get? index
          else if m = 90 then some ("WRITTEN COMPONENT " ++ natRepr (index + 1))
          else if m = 10 ∨ m = 20 then some ("ORAL COMPONENT " ++ natRepr (index + 1))
          else none
      | none => none
    else none
  match magnitude with
  | some name => some name
  | none =>
      let gradeBased : Option String :=
        if grade != "" then
          let g := pyUpper grade
          if ["A1", "A2", "B1", "B2"].contains g then cbseSubjects.get? index
          else if ["A+", "A", "B+", "B"].contains g then uniSubjects.get? index
          else none
        else none
      match gradeBased with
      | some name => some name
      | none => commonSubjects.get? index

/-- Lines 149-157: the `subject_name` value extracted from either
format.  The mapping case passes the raw `value` through unchanged; the
scalar cases always produce a string. -/
def subjectNameOf (subject : List (String × Json)) : Json :=
  let d := match objGetL subject "subject_name" with | some v => v | none => .obj []
  match d with
  | .obj e => (match objGetL e "value" with | some v => v | none => .str "")
  | .str s => .str s
  | other => if pyTruthy other then .str (pyStr other) else .str ""

/-- One iteration of the `_validate_and_fix_subjects` loop on a mapping
subject.  `.error` models the `AttributeError` raised by
`subject_name.lower()` when a mapping carried a truthy non-string
`value` — the one exception source in the loop, caught at function
level. -/
def fixSubject (i : Nat) (subject : List (String × Json)) :
    Except Unit (List (String × Json)) :=
  match subjectNameOf subject with
  | .str s =>
      if s = "" ∨ isSentinel s then
        match inferSubjectName subject i with
        | some inferred =>
            .ok (objSet subject "subject_name"
              (.obj [("value", .str inferred), ("confidence", .float (mkRat 3 5))]))
        | none =>
            .ok (objSet subject "subject_name"
              (.obj [("value", .str ("Subject " ++ natRepr (i + 1))),
                     ("confidence", .float (mkRat 3 10))]))
      else
        let cleaned := cleanSubjectName s
        if cleaned = s then .ok subject
        else
          match objGetL subject "subject_name" with
          | some (.obj e) =>
              .ok (objSet subject "subject_name" (.obj (objSet e "value" (.str cleaned))))
          | _ =>
              .ok (objSet subject "subject_name"
                (.obj [("value", .str cleaned), ("confidence", .float (mkRat 4 5))]))
  | j =>
      if pyTruthy j then .error ()
      else
        match inferSubjectName subject i with
        | some inferred =>
            .ok (objSet subject "subject_name"
              (.obj [("value", .str inferred), ("confidence", .float (mkRat 3 5))]))
        | none =>
            .ok (objSet subject "subject_name"
              (.obj [("value", .str ("Subject " ++ natRepr (i + 1))),
                     ("confidence", .float (mkRat 3 10))]))

/-- The `for i, subject in enumerate(subjects)` loop: mapping entries
are repaired and kept, non-mapping entries are skipped; the enumeration
index advances over every entry. -/
def fixSubjects : Nat → List Json → Except Unit (List Json)
  | _, [] => .ok []
  | i, s :: rest =>
      match s with
      | .obj e =>
          match fixSubject i e with
          | .error u => .error u
          | .ok e2 =>
              match fixSubjects (i + 1) rest with
              | .error u => .error u
              | .ok l => .ok (.obj e2 :: l)
      | _ => fixSubjects (i + 1) rest

/-- Model of `_validate_and_fix_subjects` on the raw mapping: non-list
`subjects` (or a non-mapping input, or an exception inside the loop)
returns the input unchanged; otherwise the repaired list is written
back. -/
def validateAndFixSubjects (raw : Json) : Json :=
  match raw with
  | .obj entries =>
      let subjectsJ := match objGetL entries "subjects" with | some v => v | none => .arr []
      match subjectsJ with
      | .arr l =>
          match fixSubjects 0 l with
          | .ok l2 => .obj (objSet entries "subjects" (.arr l2))
          | .error _ => .obj entries
      | _ => .obj entries
  | j => j

/-!
Structuring — `app/models/schemas.py` data model and
`app/services/extractor.py` `_create_extracted_field` (lines 395-433) /
`_structure_extracted_data` (lines 328-393).  `Option` models the
`ValueError` propagation; pydantic's `Optional[str]` value validation is
modelled, its inner `Dict[str, float]` bounding-box coercion is not (no
claim touches bounding boxes).
-/

structure ExtractedField where
  value : Option String
  confidence : ℚ
  boundingBox : Option Json

structure CandidateDetails where
  name : ExtractedField
  father_name : Option ExtractedField
  mother_name : Option ExtractedField
  roll_number : Option ExtractedField
  registration_number : Option ExtractedField
  date_of_birth : Option ExtractedField
  exam_year : Option ExtractedField
  board_university : Option ExtractedField
  institution : Option ExtractedField

structure SubjectMark where
  subject_name : ExtractedField
  max_marks : Option ExtractedField
  max_credits : Option ExtractedField
  obtained_marks : Option ExtractedField
  obtained_credits : Option ExtractedField
  grade : Option ExtractedField
  remarks : Option ExtractedField

structure OverallResult where
  total_marks : Option ExtractedField
  total_credits : Option ExtractedField
  percentage : Option ExtractedField
  cgpa : Option ExtractedField
  grade : Option ExtractedField
  division : Option ExtractedField
  result_status : Option ExtractedField

structure DocumentInfo where
  issue_date : Option ExtractedField
  issue_place : Option ExtractedField
  document_type : Option ExtractedField
  academic_session : Option ExtractedField

structure MarksheetData where
  candidate_details : CandidateDetails
  subjects : List SubjectMark
  overall_result : OverallResult
  document_info : DocumentInfo

def confClamp (c : ℚ) : ℚ := qMax 0 (qMin 1 c)

/-- `max(0.0, min(1.0, float(confidence) if confidence is not None else 0.0))`
with `ValueError`/`TypeError` collapsing to `0.0`. -/
def coerceConfidence (j : Json) : ℚ :=
  match j with
  | .null => confClamp 0
  | j' =>
      match pyFloatCoerce j' with
      | some q => confClamp q
      | none => 0

/-- pydantic coercion of the final `value` into `Optional[str]`:
non-string, non-`None` values are a validation error. -/
def validValue : Json → Option (Option String)
  | .null => some none
  | .str s => some (some s)
  | _ => none

/-- pydantic coercion of `bounding_box` into `Optional[Dict[str, float]]`
(mapping-shaped values pass through unvalidated). -/
def validBoundingBox : Option Json → Option (Option Json)
  | none => some none
  | some .null => some none
  | some (.obj e) => some (some (.obj e))
  | some _ => none

/-- Model of `_create_extracted_field`.  The argument is the raw field
datum (`none` when the key was absent); the result is `none` where
pydantic validation raises. -/
def createExtractedField (fd : Option Json) : Option ExtractedField :=
  match fd with
  | none => some ⟨none, 0, none⟩
  | some j =>
      if pyTruthy j then
        match j with
        | .obj e =>
            let v0 : Json := match objGetL e "value" with | some x => x | none => .null
            let c0 : Json := match objGetL e "confidence" with | some x => x | none => .float 0
            let b0 : Option Json := objGetL e "bounding_box"
            let v1 : Json :=
              if pyTruthy v0 then
                (let t := pyStrip (pyStr v0); if isSentinel t then .null else .str t)
              else v0
            let c1 : ℚ :=
              if pyTruthy v0 ∧ isSentinel (pyStrip (pyStr v0)) then confClamp 0
              else coerceConfidence c0
            match validValue v1, validBoundingBox b0 with
            | some v, some b => some ⟨v, c1, b⟩
            | _, _ => none
        | .str s =>
            let t := pyStrip s
            if isSentinel t then some ⟨none, confClamp 0, none⟩
            else some ⟨some t, confClamp (mkRat 4 5), none⟩
        | j2 =>
            let s := pyStr j2
            if s != "" then
              let t := pyStrip s
              if isSentinel t then some ⟨none, confClamp 0, none⟩
              else some ⟨some t, confClamp (mkRat 4 5), none⟩
            else some ⟨some s, confClamp (mkRat 4 5), none⟩
      else some ⟨none, 0, none⟩

/-- `raw_data.get(k, dict())` followed by attribute access: absent keys
yield the empty section, non-mapping values raise (`none`). -/
def getSectionObj (raw : Json) (k : String) : Option (List (String × Json)) :=
  match raw with
  | .obj entries =>
      match objGetL entries k with
      | none => some []
      | some (.obj e) => some e
      | some _ => none
  | _ => none

def cefAt (e : List (String × Json)) (k : String) : Option ExtractedField :=
  createExtractedField (objGetL e k)

def mkSubjectMark (e : List (String × Json)) : Option SubjectMark := do
  let sn ← cefAt e "subject_name"
  let mm ← cefAt e "max_marks"
  let mc ← cefAt e "max_credits"
  let om ← cefAt e "obtained_marks"
  let oc ← cefAt e "obtained_credits"
  let g ← cefAt e "grade"
  let r ← cefAt e "remarks"
  pure ⟨sn, some mm, some mc, some om, some oc, some g, some r⟩

def mkCandidateDetails (cd : List (String × Json)) : Option CandidateDetails := do
  let name ← cefAt cd "name"
  let father ← cefAt cd "father_name"
  let mother ← cefAt cd "mother_name"
  let roll ← cefAt cd "roll_number"
  let reg ← cefAt cd "registration_number"
  let dob ← cefAt cd "date_of_birth"
  let examYear ← cefAt cd "exam_year"
  let board ← cefAt cd "board_university"
  let inst ← cefAt cd "institution"
  pure (CandidateDetails.mk name (some father) (some mother) (some roll)
    (some reg) (some dob) (some examYear) (some board) (some inst))

def mkOverallResult (orr : List (String × Json)) : Option OverallResult := do
  let tm ← cefAt orr "total_marks"
  let tc ← cefAt orr "total_credits"
  let pct ← cefAt orr "percentage"
  let cgpa ← cefAt orr "cgpa"
  let og ← cefAt orr "grade"
  let dvn ← cefAt orr "division"
  let rs ← cefAt orr "result_status"
  pure (OverallResult.mk (some tm) (some tc) (some pct) (some cgpa) (some og)
    (some dvn) (some rs))

def mkDocumentInfo (di : List (String × Json)) : Option DocumentInfo := do
  let idate ← cefAt di "issue_date"
  let iplace ← cefAt di "issue_place"
  let dtype ← cefAt di "document_type"
  let asession ← cefAt di "academic_session"
  pure (DocumentInfo.mk (some idate) (some iplace) (some dtype) (some asession))

/-- The `subjects` entry as iterated by `_structure_extracted_data`:
list entries that are mappings; a non-list entry is treated as absent. -/
def subjectEntriesOf (raw : Json) : List (List (String × Json)) :=
  let subjectsJ : List Json :=
    match raw with
    | .obj entries =>
        match objGetL entries "subjects" with
        | some (.arr l) => l
        | _ => []
    | _ => []
  subjectsJ.filterMap (fun j => match j with | .obj e => some e | _ => none)

/-- Model of `_structure_extracted_data`: `none` where the source raises
`ValueError`. -/
def structureExtractedData (raw : Json) : Option MarksheetData := do
  let cd ← getSectionObj raw "candidate_details"
  let candidate ← mkCandidateDetails cd
  let subjects ← (subjectEntriesOf raw).mapM mkSubjectMark
  let orr ← getSectionObj raw "overall_result"
  let overall ← mkOverallResult orr
  let di ← getSectionObj raw "document_info"
  let docinfo ← mkDocumentInfo di
  pure (MarksheetData.mk candidate subjects overall docinfo)

example : createExtractedField (some (.str " Alice "))
    = some ⟨some "Alice", mkRat 4 5, none⟩ := rfl
example : createExtractedField (some (.str "N/A")) = some ⟨none, 0, none⟩ := rfl
example : createExtractedField (some (.int 0)) = some ⟨none, 0, none⟩ := rfl
example : createExtractedField (some (.obj [("value", .null), ("confidence", .float (mkRat 9 10))]))
    = some ⟨none, mkRat 9 10, none⟩ := rfl

/-!
Confidence Calibrator — `app/utils/confidence.py`:
`ConfidenceCalculator._calibrate_field` (lines 65-91),
`calibrate_confidence` (lines 23-63), `_check_marks_consistency`
(lines 122-161); `settings.min_confidence_threshold` defaults to 0.5
(`app/config/settings.py`).
-/

/-- `settings.min_confidence_threshold` default. -/
def defaultMinThreshold : ℚ := mkRat 1 2

/-- `_get_calibration_factor`'s table with default 1.0. -/
def calibrationFactor (fieldType : String) : ℚ :=
  if fieldType = "candidate_detail" then mkRat 1 1
  else if fieldType = "subject_mark" then mkRat 19 20
  else if fieldType = "overall_result" then mkRat 21 20
  else if fieldType = "document_info" then mkRat 9 10
  else mkRat 1 1

/-- Model of `_calibrate_field` with the configured threshold `thr`:
fields with a falsy value (`None` or `''`) are returned unchanged. -/
def calibrateField (thr : ℚ) (fieldType : String) (f : ExtractedField) : ExtractedField :=
  if f.value = none ∨ f.value = some "" then f
  else
    let cal := qMin 1 (qMul f.confidence (calibrationFactor fieldType))
    let cal2 := if cal < thr then qMax cal thr else cal
    ⟨f.value, cal2, f.boundingBox⟩

def calibrateOpt (thr : ℚ) (fieldType : String) :
    Option ExtractedField → Option ExtractedField :=
  Option.map (calibrateField thr fieldType)

def calibrateSubject (thr : ℚ) (s : SubjectMark) : SubjectMark :=
  ⟨calibrateField thr "subject_mark" s.subject_name,
   calibrateOpt thr "subject_mark" s.max_marks,
   calibrateOpt thr "subject_mark" s.max_credits,
   calibrateOpt thr "subject_mark" s.obtained_marks,
   calibrateOpt thr "subject_mark" s.obtained_credits,
   calibrateOpt thr "subject_mark" s.grade,
   calibrateOpt thr "subject_mark" s.remarks⟩

/-- Model of `calibrate_confidence`: every `ExtractedField` slot of the
four sections is calibrated with its section's field type; `None` slots
are left alone (the `isinstance` check). -/
def calibrateConfidence (thr : ℚ) (d : MarksheetData) : MarksheetData :=
  ⟨⟨calibrateField thr "candidate_detail" d.candidate_details.name,
    calibrateOpt thr "candidate_detail" d.candidate_details.father_name,
    calibrateOpt thr "candidate_detail" d.candidate_details.mother_name,
    calibrateOpt thr "candidate_detail" d.candidate_details.roll_number,
    calibrateOpt thr "candidate_detail" d.candidate_details.registration_number,
    calibrateOpt thr "candidate_detail" d.candidate_details.date_of_birth,
    calibrateOpt thr "candidate_detail" d.candidate_details.exam_year,
    calibrateOpt thr "candidate_detail" d.candidate_details.board_university,
    calibrateOpt thr "candidate_detail" d.candidate_details.institution⟩,
   d.subjects.map (calibrateSubject thr),
   ⟨calibrateOpt thr "overall_result" d.overall_result.total_marks,
    calibrateOpt thr "overall_result" d.overall_result.total_credits,
    calibrateOpt thr "overall_result" d.overall_result.percentage,
    calibrateOpt thr "overall_result" d.overall_result.cgpa,
    calibrateOpt thr "overall_result" d.overall_result.grade,
    calibrateOpt thr "overall_result" d.overall_result.division,
    calibrateOpt thr "overall_result" d.overall_result.result_status⟩,
   ⟨calibrateOpt thr "document_info" d.document_info.issue_date,
    calibrateOpt thr "document_info" d.document_info.issue_place,
    calibrateOpt thr "document_info" d.document_info.document_type,
    calibrateOpt thr "document_info" d.document_info.academic_session⟩⟩

/-- The numeric contribution of one subject to `total_obtained`: present
`obtained_marks` with a truthy value that `float(...)` accepts. -/
def subjectMarkContribution (s : SubjectMark) : Option ℚ :=
  match s.obtained_marks with
  | none => none
  | some f =>
      match f.value with
      | none => none
      | some v => if v = "" then none else pyFloat v

/-- `total_obtained`: the running float sum over parsing subjects. -/
def obtainedSum (subjects : List SubjectMark) : ℚ :=
  subjects.foldl
    (fun acc s => match subjectMarkContribution s with
      | some q => qAdd acc q
      | none => acc) 0

/-- `float(data.overall_result.total_marks.value)` behind its truthiness
guards: `none` when the field is absent, its value falsy, or parsing
fails. -/
def statedTotal (d : MarksheetData) : Option ℚ :=
  match d.overall_result.total_marks with
  | none => none
  | some f =>
      match f.value with
      | none => none
      | some v => if v = "" then none else pyFloat v

def boostSubject (s : SubjectMark) : SubjectMark :=
  match s.obtained_marks with
  | none => s
  | some f =>
      ⟨s.subject_name, s.max_marks, s.max_credits,
       some ⟨f.value, qMin 1 (qMul f.confidence (mkRat 21 20)), f.boundingBox⟩,
       s.obtained_credits, s.grade, s.remarks⟩

def boostTotalMarks (o : OverallResult) : OverallResult :=
  match o.total_marks with
  | none => o
  | some f =>
      ⟨some ⟨f.value, qMin 1 (qMul f.confidence (mkRat 11 10)), f.boundingBox⟩,
       o.total_credits, o.percentage, o.cgpa, o.grade, o.division, o.result_status⟩

/-- Model of `_check_marks_consistency`: when the parsed subject sum is
within the 5% test of the parsed stated total, the total's confidence is
boosted ×1.1 and every present `obtained_marks` ×1.05, capped at 1.0; a
zero stated total raises `ZeroDivisionError`, swallowed by the
function's `except` — no change.  The enclosing guard returns unchanged
data when `subjects` is empty. -/
def checkMarksConsistency (d : MarksheetData) : MarksheetData :=
  if d.subjects.isEmpty then d
  else
    match statedTotal d with
    | none => d
    | some t =>
        if t = 0 then d
        else if qDiv (qAbs (qSub (obtainedSum d.subjects) t)) t < mkRat 1 20 then
          ⟨d.candidate_details, d.subjects.map boostSubject,
           boostTotalMarks d.overall_result, d.document_info⟩
        else d

/-!
Claim theorems.
-/

/-- C3 counterexample: two quota failures followed by a success make
three backend invocations for one caller request — the claimed bound of
at most two invocations is false. -/
theorem c3_two_attempt_bound_false :
    (extractFromImage [.failure "429 Too Many Requests",
      .failure "Quota exceeded for model", .success (.str "ok")]).2 = 3 ∧
    ¬((extractFromImage [.failure "429 Too Many Requests",
      .failure "Quota exceeded for model", .success (.str "ok")]).2 ≤ 2) := by
  constructor
  · rfl
  · decide

/-- C3 (amended): on a quota/rate-limit error signal the gateway waits
the fixed back-off and retries the entire call recursively with no
bound: a run of `k` quota-signalled failures before a success makes
exactly `k + 1` backend invocations and returns that success. -/
theorem c3_quota_retry_unbounded (msgs : List String)
    (h : ∀ m ∈ msgs, isQuotaError m = true) (r : Json)
    (rest : List BackendOutcome) :
    extractFromImage (msgs.map BackendOutcome.failure ++ .success r :: rest)
      = (.ok r, msgs.length + 1) := by
  induction msgs with
  | nil => rfl
  | cons m t ih =>
      have hm : isQuotaError m = true := h m (List.mem_cons_self m t)
      have ht : ∀ m' ∈ t, isQuotaError m' = true :=
        fun m' hm' => h m' (List.mem_cons_of_mem m hm')
      simp only [List.map_cons, List.cons_append, extractFromImage, hm, if_true,
        List.append_eq]
      rw [ih ht]
      rfl

theorem c3_quota_retry_unbounded_witness :
    (∀ m ∈ ["error 429", "quota exhausted", "HTTP 429 again"], isQuotaError m = true) ∧
    extractFromImage ((["error 429", "quota exhausted", "HTTP 429 again"].map
        BackendOutcome.failure) ++ .success (.str "ok") :: [])
      = (.ok (.str "ok"), 4) :=
  ⟨by decide, c3_quota_retry_unbounded _ (by decide) (.str "ok") []⟩

/-!
C10 infrastructure: at most one abbreviation key can fire in the
`_clean_subject_name` loop — the keys are pairwise non-prefix, and no
later key is a prefix of any expansion result.
-/

theorem take_of_take_eq (U k ab : List Char) (hab : U.take ab.length = ab)
    (hk : U.take k.length = k) (hle : k.length ≤ ab.length) :
    ab.take k.length = k := by
  rw [← hab, List.take_take, Nat.min_eq_left hle]
  exact hk

/-- If `ab` is a prefix of `U` and `k` conflicts with `ab` (neither is a
prefix of the other), then `k` is not a prefix of `U`. -/
theorem startsWith_conflict (U k ab : List Char) (hab : U.take ab.length = ab)
    (hcm : (k.length ≤ ab.length ∧ ab.take k.length ≠ k) ∨
      (ab.length ≤ k.length ∧ k.take ab.length ≠ ab)) :
    startsWithL U k = false := by
  simp only [startsWithL, decide_eq_false_iff_not]
  intro hk
  rcases hcm with ⟨hle, hne⟩ | ⟨hge, hne⟩
  · exact hne (take_of_take_eq U k ab hab hk hle)
  · exact hne (take_of_take_eq U ab k hk hab hge)

/-- A key that disagrees with `e` within the first two characters is not
a prefix of `e ++ X`, whatever `X` is. -/
theorem startsWith_append_eq_false (k e X : List Char) (h2k : 2 ≤ k.length)
    (h2e : 2 ≤ e.length) (hne : e.take 2 ≠ k.take 2) :
    startsWithL (e ++ X) k = false := by
  simp only [startsWithL, decide_eq_false_iff_not]
  intro hpre
  apply hne
  have h1 : ((e ++ X).take k.length).take 2 = k.take 2 := by rw [hpre]
  rw [List.take_take, Nat.min_eq_left h2k, List.take_append_of_le_length h2e] at h1
  exact h1

theorem replaceFirst_of_startsWith (s old new : List Char) (hold : old ≠ [])
    (h : startsWithL s old = true) :
    replaceFirstL s old new = new ++ s.drop old.length := by
  cases s with
  | nil =>
      exfalso
      apply hold
      have h2 := of_decide_eq_true h
      simpa using h2.symm
  | cons c t => simp [replaceFirstL, h]

theorem applyExpansions_noFire (T : List (String × String)) (c1 : List Char)
    (h : ∀ p ∈ T, startsWithL (pyUpperL c1) p.1.data = false) :
    applyExpansions T c1 = c1 := by
  induction T with
  | nil => rfl
  | cons p t ih =>
      obtain ⟨ab, full⟩ := p
      have h0 : startsWithL (pyUpperL c1) ab.data = false :=
        h (ab, full) (List.mem_cons_self _ _)
      simp only [applyExpansions, h0, Bool.false_eq_true, if_false]
      exact ih (fun p hp => h p (List.mem_cons_of_mem _ hp))

theorem applyExpansions_cons_neg (ab full : String) (T : List (String × String))
    (c1 : List Char) (h : startsWithL (pyUpperL c1) ab.data = false) :
    applyExpansions ((ab, full) :: T) c1 = applyExpansions T c1 := by
  simp only [applyExpansions, h, Bool.false_eq_true, if_false]

theorem applyExpansions_cons_pos (ab full : String) (T : List (String × String))
    (c1 : List Char) (h : startsWithL (pyUpperL c1) ab.data = true) :
    applyExpansions ((ab, full) :: T) c1
      = applyExpansions T (replaceFirstL (pyUpperL c1) ab.data full.data) := by
  simp only [applyExpansions, h, if_true]

/-- The expansion loop with a matching key: exactly the first matching
key fires, once. -/
theorem applyExpansions_fire (c : List Char) (ab full : String)
    (hmem : (ab, full) ∈ subjectExpansions)
    (h : startsWithL (pyUpperL c) ab.data = true) :
    applyExpansions subjectExpansions c
      = replaceFirstL (pyUpperL c) ab.data full.data := by
  have hTake := of_decide_eq_true h
  unfold subjectExpansions
  simp only [subjectExpansions, List.mem_cons, List.mem_singleton,
    List.not_mem_nil, or_false, Prod.mk.injEq] at hmem
  rcases hmem with hMA | hEN | hSC | hSO | hPH | hCH | hBI | hHI | hGE | hEC | hCO
  · -- MATH
    obtain ⟨rfl, rfl⟩ := hMA
    have hrep := replaceFirst_of_startsWith (pyUpperL c) "MATH".data
      "MATHEMATICS".data (by decide) h
    rw [applyExpansions_cons_pos _ _ _ _ h, hrep, applyExpansions_noFire]
    intro p hp
    fin_cases hp <;>
      · simp only [pyUpperL, List.map_append]
        rw [show List.map asciiUpper "MATHEMATICS".data = "MATHEMATICS".data from by decide]
        exact startsWith_append_eq_false _ _ _ (by decide) (by decide) (by decide)
  · -- ENG
    obtain ⟨rfl, rfl⟩ := hEN
    have e1 := startsWith_conflict (pyUpperL c) "MATH".data "ENG".data hTake (by decide)
    have hrep := replaceFirst_of_startsWith (pyUpperL c) "ENG".data
      "ENGLISH".data (by decide) h
    rw [applyExpansions_cons_neg _ _ _ _ e1,
      applyExpansions_cons_pos _ _ _ _ h, hrep, applyExpansions_noFire]
    intro p hp
    fin_cases hp <;>
      · simp only [pyUpperL, List.map_append]
        rw [show List.map asciiUpper "ENGLISH".data = "ENGLISH".data from by decide]
        exact startsWith_append_eq_false _ _ _ (by decide) (by decide) (by decide)
  · -- SCI
    obtain ⟨rfl, rfl⟩ := hSC
    have e1 := startsWith_conflict (pyUpperL c) "MATH".data "SCI".data hTake (by decide)
    have e2 := startsWith_conflict (pyUpperL c) "ENG".data "SCI".data hTake (by decide)
    have hrep := replaceFirst_of_startsWith (pyUpperL c) "SCI".data
      "SCIENCE".data (by decide) h
    rw [applyExpansions_cons_neg _ _ _ _ e1, applyExpansions_cons_neg _ _ _ _ e2,
      applyExpansions_cons_pos _ _ _ _ h, hrep, applyExpansions_noFire]
    intro p hp
    fin_cases hp <;>
      · simp only [pyUpperL, List.map_append]
        rw [show List.map asciiUpper "SCIENCE".data = "SCIENCE".data from by decide]
        exact startsWith_append_eq_false _ _ _ (by decide) (by decide) (by decide)
  · -- SOC
    obtain ⟨rfl, rfl⟩ := hSO
    have e1 := startsWith_conflict (pyUpperL c) "MATH".data "SOC".data hTake (by decide)
    have e2 := startsWith_conflict (pyUpperL c) "ENG".data "SOC".data hTake (by decide)
    have e3 := startsWith_conflict (pyUpperL c) "SCI".data "SOC".data hTake (by decide)
    have hrep := replaceFirst_of_startsWith (pyUpperL c) "SOC".data
      "SOCIAL SCIENCE".data (by decide) h
    rw [applyExpansions_cons_neg _ _ _ _ e1, applyExpansions_cons_neg _ _ _ _ e2, applyExpansions_cons_neg _ _ _ _ e3,
      applyExpansions_cons_pos _ _ _ _ h, hrep, applyExpansions_noFire]
    intro p hp
    fin_cases hp <;>
      · simp only [pyUpperL, List.map_append]
        rw [show List.map asciiUpper "SOCIAL SCIENCE".data = "SOCIAL SCIENCE".data from by decide]
        exact startsWith_append_eq_false _ _ _ (by decide) (by decide) (by decide)
  · -- PHYS
    obtain ⟨rfl, rfl⟩ := hPH
    have e1 := startsWith_conflict (pyUpperL c) "MATH".data "PHYS".data hTake (by decide)
    have e2 := startsWith_conflict (pyUpperL c) "ENG".data "PHYS".data hTake (by decide)
    have e3 := startsWith_conflict (pyUpperL c) "SCI".data "PHYS".data hTake (by decide)
    have e4 := startsWith_conflict (pyUpperL c) "SOC".data "PHYS".data hTake (by decide)
    have hrep := replaceFirst_of_startsWith (pyUpperL c) "PHYS".data
      "PHYSICS".data (by decide) h
    rw [applyExpansions_cons_neg _ _ _ _ e1, applyExpansions_cons_neg _ _ _ _ e2, applyExpansions_cons_neg _ _ _ _ e3, applyExpansions_cons_neg _ _ _ _ e4,
      applyExpansions_cons_pos _ _ _ _ h, hrep, applyExpansions_noFire]
    intro p hp
    fin_cases hp <;>
      · simp only [pyUpperL, List.map_append]
        rw [show List.map asciiUpper "PHYSICS".data = "PHYSICS".data from by decide]
        exact startsWith_append_eq_false _ _ _ (by decide) (by decide) (by decide)
  · -- CHEM
    obtain ⟨rfl, rfl⟩ := hCH
    have e1 := startsWith_conflict (pyUpperL c) "MATH".data "CHEM".data hTake (by decide)
    have e2 := startsWith_conflict (pyUpperL c) "ENG".data "CHEM".data hTake (by decide)
    have e3 := startsWith_conflict (pyUpperL c) "SCI".data "CHEM".data hTake (by decide)
    have e4 := startsWith_conflict (pyUpperL c) "SOC".data "CHEM".data hTake (by decide)
    have e5 := startsWith_conflict (pyUpperL c) "PHYS".data "CHEM".data hTake (by decide)
    have hrep := replaceFirst_of_startsWith (pyUpperL c) "CHEM".data
      "CHEMISTRY".data (by decide) h
    rw [applyExpansions_cons_neg _ _ _ _ e1, applyExpansions_cons_neg _ _ _ _ e2, applyExpansions_cons_neg _ _ _ _ e3, applyExpansions_cons_neg _ _ _ _ e4, applyExpansions_cons_neg _ _ _ _ e5,
      applyExpansions_cons_pos _ _ _ _ h, hrep, applyExpansions_noFire]
    intro p hp
    fin_cases hp <;>
      · simp only [pyUpperL, List.map_append]
        rw [show List.map asciiUpper "CHEMISTRY".data = "CHEMISTRY".data from by decide]
        exact startsWith_append_eq_false _ _ _ (by decide) (by decide) (by decide)
  · -- BIO
    obtain ⟨rfl, rfl⟩ := hBI
    have e1 := startsWith_conflict (pyUpperL c) "MATH".data "BIO".data hTake (by decide)
    have e2 := startsWith_conflict (pyUpperL c) "ENG".data "BIO".data hTake (by decide)
    have e3 := startsWith_conflict (pyUpperL c) "SCI".data "BIO".data hTake (by decide)
    have e4 := startsWith_conflict (pyUpperL c) "SOC".data "BIO".data hTake (by decide)
    have e5 := startsWith_conflict (pyUpperL c) "PHYS".data "BIO".data hTake (by decide)
    have e6 := startsWith_conflict (pyUpperL c) "CHEM".data "BIO".data hTake (by decide)
    have hrep := replaceFirst_of_startsWith (pyUpperL c) "BIO".data
      "BIOLOGY".data (by decide) h
    rw [applyExpansions_cons_neg _ _ _ _ e1, applyExpansions_cons_neg _ _ _ _ e2, applyExpansions_cons_neg _ _ _ _ e3, applyExpansions_cons_neg _ _ _ _ e4, applyExpansions_cons_neg _ _ _ _ e5, applyExpansions_cons_neg _ _ _ _ e6,
      applyExpansions_cons_pos _ _ _ _ h, hrep, applyExpansions_noFire]
    intro p hp
    fin_cases hp <;>
      · simp only [pyUpperL, List.map_append]
        rw [show List.map asciiUpper "BIOLOGY".data = "BIOLOGY".data from by decide]
        exact startsWith_append_eq_false _ _ _ (by decide) (by decide) (by decide)
  · -- HIST
    obtain ⟨rfl, rfl⟩ := hHI
    have e1 := startsWith_conflict (pyUpperL c) "MATH".data "HIST".data hTake (by decide)
    have e2 := startsWith_conflict (pyUpperL c) "ENG".data "HIST".data hTake (by decide)
    have e3 := startsWith_conflict (pyUpperL c) "SCI".data "HIST".data hTake (by decide)
    have e4 := startsWith_conflict (pyUpperL c) "SOC".data "HIST".data hTake (by decide)
    have e5 := startsWith_conflict (pyUpperL c) "PHYS".data "HIST".data hTake (by decide)
    have e6 := startsWith_conflict (pyUpperL c) "CHEM".data "HIST".data hTake (by decide)
    have e7 := startsWith_conflict (pyUpperL c) "BIO".data "HIST".data hTake (by decide)
    have hrep := replaceFirst_of_startsWith (pyUpperL c) "HIST".data
      "HISTORY".data (by decide) h
    rw [applyExpansions_cons_neg _ _ _ _ e1, applyExpansions_cons_neg _ _ _ _ e2, applyExpansions_cons_neg _ _ _ _ e3, applyExpansions_cons_neg _ _ _ _ e4, applyExpansions_cons_neg _ _ _ _ e5, applyExpansions_cons_neg _ _ _ _ e6, applyExpansions_cons_neg _ _ _ _ e7,
      applyExpansions_cons_pos _ _ _ _ h, hrep, applyExpansions_noFire]
    intro p hp
    fin_cases hp <;>
      · simp only [pyUpperL, List.map_append]
        rw [show List.map asciiUpper "HISTORY".data = "HISTORY".data from by decide]
        exact startsWith_append_eq_false _ _ _ (by decide) (by decide) (by decide)
  · -- GEO
    obtain ⟨rfl, rfl⟩ := hGE
    have e1 := startsWith_conflict (pyUpperL c) "MATH".data "GEO".data hTake (by decide)
    have e2 := startsWith_conflict (pyUpperL c) "ENG".data "GEO".data hTake (by decide)
    have e3 := startsWith_conflict (pyUpperL c) "SCI".data "GEO".data hTake (by decide)
    have e4 := startsWith_conflict (pyUpperL c) "SOC".data "GEO".data hTake (by decide)
    have e5 := startsWith_conflict (pyUpperL c) "PHYS".data "GEO".data hTake (by decide)
    have e6 := startsWith_conflict (pyUpperL c) "CHEM".data "GEO".data hTake (by decide)
    have e7 := startsWith_conflict (pyUpperL c) "BIO".data "GEO".data hTake (by decide)
    have e8 := startsWith_conflict (pyUpperL c) "HIST".data "GEO".data hTake (by decide)
    have hrep := replaceFirst_of_startsWith (pyUpperL c) "GEO".data
      "GEOGRAPHY".data (by decide) h
    rw [applyExpansions_cons_neg _ _ _ _ e1, applyExpansions_cons_neg _ _ _ _ e2, applyExpansions_cons_neg _ _ _ _ e3, applyExpansions_cons_neg _ _ _ _ e4, applyExpansions_cons_neg _ _ _ _ e5, applyExpansions_cons_neg _ _ _ _ e6, applyExpansions_cons_neg _ _ _ _ e7, applyExpansions_cons_neg _ _ _ _ e8,
      applyExpansions_cons_pos _ _ _ _ h, hrep, applyExpansions_noFire]
    intro p hp
    fin_cases hp <;>
      · simp only [pyUpperL, List.map_append]
        rw [show List.map asciiUpper "GEOGRAPHY".data = "GEOGRAPHY".data from by decide]
        exact startsWith_append_eq_false _ _ _ (by decide) (by decide) (by decide)
  · -- FL
    obtain ⟨rfl, rfl⟩ := hEC
    have e1 := startsWith_conflict (pyUpperL c) "MATH".data "FL".data hTake (by decide)
    have e2 := startsWith_conflict (pyUpperL c) "ENG".data "FL".data hTake (by decide)
    have e3 := startsWith_conflict (pyUpperL c) "SCI".data "FL".data hTake (by decide)
    have e4 := startsWith_conflict (pyUpperL c) "SOC".data "FL".data hTake (by decide)
    have e5 := startsWith_conflict (pyUpperL c) "PHYS".data "FL".data hTake (by decide)
    have e6 := startsWith_conflict (pyUpperL c) "CHEM".data "FL".data hTake (by decide)
    have e7 := startsWith_conflict (pyUpperL c) "BIO".data "FL".data hTake (by decide)
    have e8 := startsWith_conflict (pyUpperL c) "HIST".data "FL".data hTake (by decide)
    have e9 := startsWith_conflict (pyUpperL c) "GEO".data "FL".data hTake (by decide)
    have hrep := replaceFirst_of_startsWith (pyUpperL c) "FL".data
      "FIRST LANGUAGE".data (by decide) h
    rw [applyExpansions_cons_neg _ _ _ _ e1, applyExpansions_cons_neg _ _ _ _ e2, applyExpansions_cons_neg _ _ _ _ e3, applyExpansions_cons_neg _ _ _ _ e4, applyExpansions_cons_neg _ _ _ _ e5, applyExpansions_cons_neg _ _ _ _ e6, applyExpansions_cons_neg _ _ _ _ e7, applyExpansions_cons_neg _ _ _ _ e8, applyExpansions_cons_neg _ _ _ _ e9,
      applyExpansions_cons_pos _ _ _ _ h, hrep, applyExpansions_noFire]
    intro p hp
    fin_cases hp
    simp only [pyUpperL, List.map_append]
    rw [show List.map asciiUpper "FIRST LANGUAGE".data = "FIRST LANGUAGE".data from by decide]
    exact startsWith_append_eq_false _ _ _ (by decide) (by decide) (by decide)
  · -- SL
    obtain ⟨rfl, rfl⟩ := hCO
    have e1 := startsWith_conflict (pyUpperL c) "MATH".data "SL".data hTake (by decide)
    have e2 := startsWith_conflict (pyUpperL c) "ENG".data "SL".data hTake (by decide)
    have e3 := startsWith_conflict (pyUpperL c) "SCI".data "SL".data hTake (by decide)
    have e4 := startsWith_conflict (pyUpperL c) "SOC".data "SL".data hTake (by decide)
    have e5 := startsWith_conflict (pyUpperL c) "PHYS".data "SL".data hTake (by decide)
    have e6 := startsWith_conflict (pyUpperL c) "CHEM".data "SL".data hTake (by decide)
    have e7 := startsWith_conflict (pyUpperL c) "BIO".data "SL".data hTake (by decide)
    have e8 := startsWith_conflict (pyUpperL c) "HIST".data "SL".data hTake (by decide)
    have e9 := startsWith_conflict (pyUpperL c) "GEO".data "SL".data hTake (by decide)
    have e10 := startsWith_conflict (pyUpperL c) "FL".data "SL".data hTake (by decide)
    have hrep := replaceFirst_of_startsWith (pyUpperL c) "SL".data
      "SECOND LANGUAGE".data (by decide) h
    rw [applyExpansions_cons_neg _ _ _ _ e1, applyExpansions_cons_neg _ _ _ _ e2, applyExpansions_cons_neg _ _ _ _ e3, applyExpansions_cons_neg _ _ _ _ e4, applyExpansions_cons_neg _ _ _ _ e5, applyExpansions_cons_neg _ _ _ _ e6, applyExpansions_cons_neg _ _ _ _ e7, applyExpansions_cons_neg _ _ _ _ e8, applyExpansions_cons_neg _ _ _ _ e9, applyExpansions_cons_neg _ _ _ _ e10,
      applyExpansions_cons_pos _ _ _ _ h, hrep, applyExpansions_noFire]
    exact fun p hp => absurd hp (List.not_mem_nil p)

/-- C10: `_clean_subject_name` is not idempotent and rewrites names that
already are full expansions: whenever the whitespace-collapsed name
uppercases to something starting with an abbreviation key, the result is
the entire collapsed name uppercased with the first occurrence of that
key replaced by its expansion; in particular "HISTORY" maps to
"HISTORYORY", "GEOGRAPHY" to "GEOGRAPHYGRAPHY", and applying the
function twice to "HISTORY" differs from applying it once. -/
theorem c10_clean_subject_name_rewrites_expansions :
    (∀ (name ab full : String), (ab, full) ∈ subjectExpansions →
        startsWithL (pyUpperL (collapseWs name).data) ab.data = true →
        cleanSubjectName name
          = ⟨replaceFirstL (pyUpperL (collapseWs name).data) ab.data full.data⟩) ∧
    cleanSubjectName "HISTORY" = "HISTORYORY" ∧
    cleanSubjectName "GEOGRAPHY" = "GEOGRAPHYGRAPHY" ∧
    cleanSubjectName (cleanSubjectName "HISTORY") ≠ cleanSubjectName "HISTORY" := by
  refine ⟨?_, rfl, rfl, by decide⟩
  intro name ab full hmem h
  by_cases hn : name = ""
  · subst hn
    exfalso
    have hd := of_decide_eq_true h
    have hz : pyUpperL (collapseWs "").data = [] := by decide
    rw [hz] at hd
    have habe : ab.data = [] := by simpa using hd.symm
    obtain ⟨d⟩ := ab
    have hd2 : d = [] := habe
    subst hd2
    have hkeys : ∀ p ∈ subjectExpansions, (p : String × String).1 ≠ "" := by
      intro p hp
      fin_cases hp <;> decide
    exact hkeys _ hmem rfl
  · simp only [cleanSubjectName, if_neg hn]
    exact congrArg (fun l => (⟨l⟩ : String))
      (applyExpansions_fire (collapseWs name).data ab full hmem h)

theorem c10_clean_subject_name_rewrites_expansions_witness :
    ("HIST", "HISTORY") ∈ subjectExpansions ∧
    startsWithL (pyUpperL (collapseWs "HISTORY").data) "HIST".data = true ∧
    cleanSubjectName "HISTORY"
      = ⟨replaceFirstL (pyUpperL (collapseWs "HISTORY").data) "HIST".data "HISTORY".data⟩ :=
  ⟨by decide, by decide,
    c10_clean_subject_name_rewrites_expansions.1 "HISTORY" "HIST" "HISTORY"
      (by decide) (by decide)⟩

/-!
Nonemptiness of the scalar stringifications, needed to rule out the
dead `value == ''` branch of the scalar coercion.
-/

theorem strData_append (a b : String) : (a ++ b).data = a.data ++ b.data := rfl

theorem str_append_ne_empty_left (a b : String) (h : a ≠ "") : a ++ b ≠ "" := by
  intro he
  apply h
  have hd : a.data ++ b.data = [] := by
    rw [← strData_append, he]
  rcases List.append_eq_nil.mp hd with ⟨ha, _⟩
  obtain ⟨d⟩ := a
  simp only at ha
  rw [ha]

theorem str_append_ne_empty_right (a b : String) (h : b ≠ "") : a ++ b ≠ "" := by
  intro he
  apply h
  have hd : a.data ++ b.data = [] := by
    rw [← strData_append, he]
  rcases List.append_eq_nil.mp hd with ⟨_, hb⟩
  obtain ⟨d⟩ := b
  simp only at hb
  rw [hb]

theorem natReprAux_ne_nil (f n : Nat) : natReprAux (f + 1) n ≠ [] := by
  unfold natReprAux
  split
  · simp
  · simp

theorem natRepr_ne_empty (n : Nat) : natRepr n ≠ "" := by
  intro h
  have hd : natReprAux (n + 1) n = [] := by
    have := congrArg String.data h
    simpa [natRepr] using this
  exact natReprAux_ne_nil n n hd

theorem intRepr_ne_empty (n : Int) : intRepr n ≠ "" := by
  unfold intRepr
  split
  · exact str_append_ne_empty_right _ _ (natRepr_ne_empty _)
  · exact natRepr_ne_empty _

theorem floatReprPos_ne_empty (q : ℚ) : floatReprPos q ≠ "" := by
  unfold floatReprPos
  split
  · exact str_append_ne_empty_right _ _ (by decide)
  · exact str_append_ne_empty_left _ _ (str_append_ne_empty_right _ _ (by decide))
  · exact str_append_ne_empty_left _ _
      (str_append_ne_empty_right _ _ (by decide))

theorem floatRepr_ne_empty (q : ℚ) : floatRepr q ≠ "" := by
  unfold floatRepr
  split
  · exact str_append_ne_empty_right _ _ (floatReprPos_ne_empty _)
  · exact floatReprPos_ne_empty _

theorem pyStr_scalar_ne_empty (j : Json) (ht : pyTruthy j = true)
    (hobj : j.isObj = false) : pyStr j ≠ "" := by
  cases j with
  | null => exact absurd ht (by decide)
  | bool b => cases b <;> simp_all [pyTruthy, pyStr]
  | int n => exact intRepr_ne_empty n
  | float q => exact floatRepr_ne_empty q
  | str s => simpa [pyTruthy] using ht
  | arr l =>
      cases l with
      | nil => exact absurd ht (by decide)
      | cons x t =>
          simp only [pyStr, pyReprJ]
          exact str_append_ne_empty_right _ _ (by decide)
  | obj l => simp [Json.isObj] at hobj

/-- C8 counterexample: the bare scalar `0` is neither a mapping nor
absent and stringifies to the non-sentinel "0", yet the coercion treats
it as absence (`value=null, confidence=0.0`), not as a value "0" at
confidence 0.8. -/
theorem c8_falsy_scalar_counterexample :
    createExtractedField (some (.int 0)) = some ⟨none, 0, none⟩ ∧
    pyStrip (pyStr (.int 0)) = "0" ∧
    isSentinel "0" = false ∧
    (some "0" : Option String) ≠ none := by
  refine ⟨rfl, rfl, by decide, by simp⟩

/-- C8 (amended): for every truthy bare scalar the result is the
stringified, trimmed value at confidence 0.8, with the case-insensitive
sentinels normalized to `value=null, confidence=0.0`; every falsy bare
scalar (`0`, `0.0`, `false`, `""`) and absence yield
`value=null, confidence=0.0`. -/
theorem c8_scalar_coercion (j : Json) :
    (j.isObj = false → pyTruthy j = true →
      createExtractedField (some j)
        = some (if isSentinel (pyStrip (pyStr j)) = true then ⟨none, 0, none⟩
            else ⟨some (pyStrip (pyStr j)), mkRat 4 5, none⟩)) ∧
    (pyTruthy j = false → createExtractedField (some j) = some ⟨none, 0, none⟩) ∧
    createExtractedField none = some ⟨none, 0, none⟩ := by
  have hclamp : confClamp (mkRat 4 5) = mkRat 4 5 := by decide
  have hzero : confClamp 0 = 0 := by decide
  refine ⟨?_, ?_, rfl⟩
  · intro hobj ht
    have hne : pyStr j ≠ "" := pyStr_scalar_ne_empty j ht hobj
    cases j with
    | null => exact absurd ht (by decide)
    | obj l => simp [Json.isObj] at hobj
    | str s =>
        simp only [createExtractedField, ht, if_true, pyStr, hclamp]
        split <;> simp_all [hzero]
    | bool b =>
        simp only [createExtractedField, ht, if_true]
        rw [if_pos (by simpa [bne_iff_ne] using hne)]
        split <;> simp_all [hclamp, hzero]
    | int n =>
        simp only [createExtractedField, ht, if_true]
        rw [if_pos (by simpa [bne_iff_ne] using hne)]
        split <;> simp_all [hclamp, hzero]
    | float q =>
        simp only [createExtractedField, ht, if_true]
        rw [if_pos (by simpa [bne_iff_ne] using hne)]
        split <;> simp_all [hclamp, hzero]
    | arr l =>
        simp only [createExtractedField, ht, if_true]
        rw [if_pos (by simpa [bne_iff_ne] using hne)]
        split <;> simp_all [hclamp, hzero]
  · intro ht
    cases j <;> simp_all [createExtractedField, pyTruthy]

theorem c8_scalar_coercion_witness :
    (Json.isObj (.str " Alice ") = false ∧ pyTruthy (.str " Alice ") = true ∧
      createExtractedField (some (.str " Alice "))
        = some (if isSentinel (pyStrip (pyStr (.str " Alice "))) = true
            then ⟨none, 0, none⟩
            else ⟨some (pyStrip (pyStr (.str " Alice "))), mkRat 4 5, none⟩)) ∧
    (pyTruthy (.bool false) = false ∧
      createExtractedField (some (.bool false)) = some ⟨none, 0, none⟩) :=
  ⟨⟨by decide, by decide, (c8_scalar_coercion (.str " Alice ")).1 (by decide) (by decide)⟩,
   ⟨by decide, (c8_scalar_coercion (.bool false)).2.1 (by decide)⟩⟩

/-- C1 counterexample: a raw `name` mapping carrying `value: null` with
`confidence: 0.9` survives Structuring as a null-valued field with
confidence 0.9 — the claimed biconditional `value == null ⇔
confidence == 0.0` fails on the produced MarksheetData. -/
theorem c1_null_with_nonzero_confidence_counterexample :
    (structureExtractedData (.obj [("candidate_details", .obj [("name",
        .obj [("value", .null), ("confidence", .float (mkRat 9 10))])])])).map
      (fun md => (md.candidate_details.name.value, md.candidate_details.name.confidence))
      = some (none, mkRat 9 10) ∧
    mkRat 9 10 ≠ 0 := by
  exact ⟨rfl, by decide⟩

/-- C1 (amended): the biconditional `value == null ⇔ confidence == 0.0`
holds for every field built from an absent datum or a bare (non-mapping)
value; mapping inputs can violate it, since a falsy `value` entry skips
the normalization and keeps the supplied confidence. -/
theorem c1_biconditional_for_nonmapping_inputs (fd : Option Json)
    (h : ∀ j, fd = some j → j.isObj = false) :
    ∃ f, createExtractedField fd = some f ∧ (f.value = none ↔ f.confidence = 0) := by
  have hzero : confClamp 0 = 0 := by decide
  have hc45 : confClamp (mkRat 4 5) ≠ 0 := by decide
  cases fd with
  | none => exact ⟨⟨none, 0, none⟩, rfl, by simp⟩
  | some j =>
      have hobj : j.isObj = false := h j rfl
      by_cases ht : pyTruthy j = true
      · cases j with
        | null => exact absurd ht (by decide)
        | obj l => simp [Json.isObj] at hobj
        | str s =>
            simp only [createExtractedField, ht, if_true]
            split
            · exact ⟨_, rfl, by simp [hzero]⟩
            · exact ⟨_, rfl, by simp [hc45]⟩
        | bool b =>
            simp only [createExtractedField, ht, if_true]
            split
            · split
              · exact ⟨_, rfl, by simp [hzero]⟩
              · exact ⟨_, rfl, by simp [hc45]⟩
            · exact ⟨_, rfl, by simp [hc45]⟩
        | int n =>
            simp only [createExtractedField, ht, if_true]
            split
            · split
              · exact ⟨_, rfl, by simp [hzero]⟩
              · exact ⟨_, rfl, by simp [hc45]⟩
            · exact ⟨_, rfl, by simp [hc45]⟩
        | float q =>
            simp only [createExtractedField, ht, if_true]
            split
            · split
              · exact ⟨_, rfl, by simp [hzero]⟩
              · exact ⟨_, rfl, by simp [hc45]⟩
            · exact ⟨_, rfl, by simp [hc45]⟩
        | arr l =>
            simp only [createExtractedField, ht, if_true]
            split
            · split
              · exact ⟨_, rfl, by simp [hzero]⟩
              · exact ⟨_, rfl, by simp [hc45]⟩
            · exact ⟨_, rfl, by simp [hc45]⟩
      · have ht2 : pyTruthy j = false := by simpa using ht
        cases j <;> simp_all [createExtractedField]

theorem c1_biconditional_for_nonmapping_inputs_witness :
    (∀ j, (some (Json.str "Alice") : Option Json) = some j → j.isObj = false) ∧
    ∃ f, createExtractedField (some (Json.str "Alice")) = some f ∧
      (f.value = none ↔ f.confidence = 0) :=
  ⟨fun j hj => by cases hj; rfl,
   c1_biconditional_for_nonmapping_inputs (some (Json.str "Alice"))
     (fun j hj => by cases hj; rfl)⟩

/-- C9: for a subject at index 0 whose extracted `subject_name` is a
sentinel string and whose `max_marks` value converts (via
`int(float(...))`) to 100, the repair writes subject_name value
"MATHEMATICS" — the head of the fixed 100-mark list — at confidence
exactly 0.6. -/
theorem c9_magnitude_inference_index0 (subject : List (String × Json)) (v : String)
    (q : ℚ) (hname : subjectNameOf subject = .str v) (hsent : isSentinel v = true)
    (hmax : pyFloat (extractValue (objGetL subject "max_marks")) = some q)
    (hint : pyIntTrunc q = 100) :
    fixSubject 0 subject = .ok (objSet subject "subject_name"
      (.obj [("value", .str "MATHEMATICS"), ("confidence", .float (mkRat 3 5))])) := by
  have hne : extractValue (objGetL subject "max_marks") ≠ "" := by
    intro h0
    rw [h0] at hmax
    rw [show pyFloat "" = (none : Option ℚ) from rfl] at hmax
    exact Option.noConfusion hmax
  have hinf : inferSubjectName subject 0 = some "MATHEMATICS" := by
    simp only [inferSubjectName]
    rw [if_pos (by simpa [bne_iff_ne] using hne), hmax]
    simp only [hint]
    norm_num
    rfl
  simp only [fixSubject, hname, hsent, or_true, if_true, hinf]

theorem c9_magnitude_inference_index0_witness :
    (subjectNameOf [("max_marks", .obj [("value", .str "100")]),
        ("subject_name", .obj [("value", .str "N/A")])] = .str "N/A" ∧
      isSentinel "N/A" = true ∧
      pyFloat (extractValue (objGetL [("max_marks", .obj [("value", .str "100")]),
        ("subject_name", .obj [("value", .str "N/A")])] "max_marks"))
        = some (mkRat 100 1) ∧
      pyIntTrunc (mkRat 100 1) = 100) ∧
    fixSubject 0 [("max_marks", .obj [("value", .str "100")]),
        ("subject_name", .obj [("value", .str "N/A")])]
      = .ok (objSet [("max_marks", .obj [("value", .str "100")]),
          ("subject_name", .obj [("value", .str "N/A")])] "subject_name"
        (.obj [("value", .str "MATHEMATICS"), ("confidence", .float (mkRat 3 5))])) :=
  ⟨⟨rfl, by decide, rfl, by decide⟩,
   c9_magnitude_inference_index0 _ "N/A" (mkRat 100 1) rfl (by decide) rfl (by decide)⟩

/-- C7 counterexample: for `"x \x7b\x7d x"` the substring between the
braces parses as the JSON object `\x7b\x7d`, but that object is falsy,
so the parse does not return it — the fallback mapping is returned
instead. -/
theorem c7_empty_object_counterexample :
    jsonLoads "x \x7b\x7d x" = none ∧
    boundarySub "x \x7b\x7d x" = some "\x7b\x7d" ∧
    jsonLoads "\x7b\x7d" = some (.obj []) ∧
    parseLLMResponse "x \x7b\x7d x" ≠ .ok (.obj []) := by
  refine ⟨rfl, rfl, rfl, ?_⟩
  intro h
  have h2 := congrArg (fun r : Except Unit Json =>
    match r with | .ok v => objGetJ v "raw_content" | .error _ => none) h
  exact Option.noConfusion h2

/-- C7 (amended): if the text does not parse directly as JSON but the
substring between its first `\x7b` and last `\x7d` parses as a truthy
(non-empty) JSON value, the parse returns exactly that value. -/
theorem c7_boundary_extraction (content sub : String) (v : Json)
    (h1 : jsonLoads content = none)
    (h2 : boundarySub content = some sub)
    (h3 : jsonLoads sub = some v)
    (h4 : pyTruthy v = true) :
    parseLLMResponse content = .ok v := by
  have hcne : content ≠ "" := by
    intro he
    subst he
    rw [show boundarySub "" = none from rfl] at h2
    exact Option.noConfusion h2
  simp only [parseLLMResponse, if_neg hcne, h1, h2, h3, strategyStep, truthyOpt,
    h4, if_true]

theorem c7_boundary_extraction_witness :
    (jsonLoads "noise \x7b\"a\":1\x7d noise" = none ∧
      boundarySub "noise \x7b\"a\":1\x7d noise" = some "\x7b\"a\":1\x7d" ∧
      jsonLoads "\x7b\"a\":1\x7d" = some (.obj [("a", .int 1)]) ∧
      pyTruthy (.obj [("a", .int 1)]) = true) ∧
    parseLLMResponse "noise \x7b\"a\":1\x7d noise" = .ok (.obj [("a", .int 1)]) :=
  ⟨⟨rfl, rfl, rfl, by decide⟩,
   c7_boundary_extraction "noise \x7b\"a\":1\x7d noise" "\x7b\"a\":1\x7d"
     (.obj [("a", .int 1)]) rfl rfl rfl (by decide)⟩

theorem strategyStep_none (prev : Option Json) (s : Option String)
    (hp : truthyOpt prev = none)
    (hs : truthyOpt (s.bind jsonLoads) = none) :
    truthyOpt (strategyStep prev s) = none := by
  unfold strategyStep
  rw [hp]
  cases s with
  | none => simpa using hp
  | some sub =>
      cases hl : jsonLoads sub with
      | none =>
          simp only [hl]
          simpa using hp
      | some v =>
          simp only [hl]
          simp only [Option.bind, hl] at hs
          exact hs

/-- C2 counterexample: `"[1, 2]"` is non-empty and recoverable, but the
recovered JSON is an array, not a mapping. -/
theorem c2_array_not_mapping_counterexample :
    parseLLMResponse "[1, 2]" = .ok (.arr [.int 1, .int 2]) ∧
    Json.isObj (.arr [.int 1, .int 2]) = false := ⟨rfl, by decide⟩

/-- C2 (amended): the parse raises exactly on empty input; on any
non-empty input it returns a JSON value without raising — a mapping
whenever one is recovered, but a truthy non-mapping value (e.g. an
array) is returned as-is; and when no strategy recovers a truthy value
it returns the fallback mapping, which carries `raw_content` equal to
the original text together with the four top-level sections (empty,
except that `candidate_details` may hold a regex-extracted name). -/
theorem c2_parse_total_and_fallback (content : String) :
    (content = "" ↔ parseLLMResponse content = .error ()) ∧
    (content ≠ "" → ∃ v, parseLLMResponse content = .ok v) ∧
    (content ≠ "" →
      truthyOpt (jsonLoads content) = none →
      truthyOpt ((boundarySub content).bind jsonLoads) = none →
      truthyOpt ((boundarySub (cleanedContent content)).bind jsonLoads) = none →
      parseLLMResponse content = .ok (fallbackStructure content) ∧
      objGetJ (fallbackStructure content) "raw_content" = some (.str content) ∧
      objGetJ (fallbackStructure content) "subjects" = some (.arr []) ∧
      objGetJ (fallbackStructure content) "overall_result" = some (.obj []) ∧
      objGetJ (fallbackStructure content) "document_info" = some (.obj []) ∧
      (∃ cd, objGetJ (fallbackStructure content) "candidate_details" = some (.obj cd))) := by
  refine ⟨⟨fun he => by subst he; rfl, fun herr => ?_⟩, fun hne => ?_, fun hne h1 h2 h3 => ?_⟩
  · by_contra hne
    rw [parseLLMResponse, if_neg hne] at herr
    exact Except.noConfusion herr
  · exact ⟨_, by rw [parseLLMResponse, if_neg hne]⟩
  · have hjd2 := strategyStep_none (jsonLoads content) (boundarySub content) h1 h2
    have hjd3 := strategyStep_none _ (boundarySub (cleanedContent content)) hjd2 h3
    refine ⟨?_, rfl, rfl, rfl, rfl, ⟨_, rfl⟩⟩
    rw [parseLLMResponse, if_neg hne]
    simp only [hjd3]

theorem c2_parse_total_and_fallback_witness :
    ("not json at all" ≠ "" ∧
      truthyOpt (jsonLoads "not json at all") = none ∧
      truthyOpt ((boundarySub "not json at all").bind jsonLoads) = none ∧
      truthyOpt ((boundarySub (cleanedContent "not json at all")).bind jsonLoads) = none) ∧
    (parseLLMResponse "not json at all" = .ok (fallbackStructure "not json at all") ∧
      objGetJ (fallbackStructure "not json at all") "raw_content"
        = some (.str "not json at all") ∧
      objGetJ (fallbackStructure "not json at all") "subjects" = some (.arr []) ∧
      objGetJ (fallbackStructure "not json at all") "overall_result" = some (.obj []) ∧
      objGetJ (fallbackStructure "not json at all") "document_info" = some (.obj []) ∧
      (∃ cd, objGetJ (fallbackStructure "not json at all") "candidate_details"
        = some (.obj cd))) :=
  ⟨⟨by decide, rfl, rfl, rfl⟩,
   (c2_parse_total_and_fallback "not json at all").2.2 (by decide) rfl rfl rfl⟩

/-!
C6 infrastructure: the repair loop as an enumeration — mapping entries
are kept (in order, repaired), non-mapping entries are dropped, the
index runs over the original list.
-/

def enumFromIdx : Nat → List Json → List (Nat × Json)
  | _, [] => []
  | i, x :: t => (i, x) :: enumFromIdx (i + 1) t

def objEntriesOnly (l : List (Nat × Json)) : List (Nat × List (String × Json)) :=
  l.filterMap (fun p => match p.2 with | .obj e => some (p.1, e) | _ => none)

def fixEnum : List (Nat × List (String × Json)) → Except Unit (List Json)
  | [] => .ok []
  | (i, e) :: t =>
      match fixSubject i e with
      | .error u => .error u
      | .ok e2 =>
          match fixEnum t with
          | .error u => .error u
          | .ok l => .ok (.obj e2 :: l)

theorem objGetL_objSet_self (entries : List (String × Json)) (k : String) (v : Json) :
    objGetL (objSet entries k v) k = some v := by
  induction entries with
  | nil => simp [objSet, objGetL]
  | cons p t ih =>
      obtain ⟨k2, v2⟩ := p
      by_cases hk : k2 = k
      · subst hk
        simp [objSet, objGetL]
      · simp [objSet, objGetL, hk, ih]

theorem fixSubjects_eq_fixEnum (l : List Json) : ∀ i,
    fixSubjects i l = fixEnum (objEntriesOnly (enumFromIdx i l)) := by
  induction l with
  | nil => intro i; rfl
  | cons x t ih =>
      intro i
      cases x with
      | obj e =>
          simp only [fixSubjects, enumFromIdx, objEntriesOnly, List.filterMap_cons,
            fixEnum, ih (i + 1)]
      | null => simpa only [fixSubjects, enumFromIdx, objEntriesOnly,
          List.filterMap_cons] using ih (i + 1)
      | bool b => simpa only [fixSubjects, enumFromIdx, objEntriesOnly,
          List.filterMap_cons] using ih (i + 1)
      | int n => simpa only [fixSubjects, enumFromIdx, objEntriesOnly,
          List.filterMap_cons] using ih (i + 1)
      | float q => simpa only [fixSubjects, enumFromIdx, objEntriesOnly,
          List.filterMap_cons] using ih (i + 1)
      | str s => simpa only [fixSubjects, enumFromIdx, objEntriesOnly,
          List.filterMap_cons] using ih (i + 1)
      | arr a => simpa only [fixSubjects, enumFromIdx, objEntriesOnly,
          List.filterMap_cons] using ih (i + 1)

theorem fixSubjects_ok_spec (l : List Json) : ∀ (i : Nat) (l2 : List Json),
    (∀ s ∈ l, s.isObj = true) → fixSubjects i l = .ok l2 →
    l2.length = l.length ∧
    ∀ k (hk : k < l2.length) (hk2 : k < l.length),
      ∃ e e2, l.get ⟨k, hk2⟩ = .obj e ∧ fixSubject (i + k) e = .ok e2 ∧
        l2.get ⟨k, hk⟩ = .obj e2 := by
  induction l with
  | nil =>
      intro i l2 _ h
      have hl2 : l2 = [] := by
        simpa [fixSubjects] using h.symm
      subst hl2
      exact ⟨rfl, fun k hk _ => absurd hk (by simp)⟩
  | cons x t ih =>
      intro i l2 hall h
      have hx : x.isObj = true := hall x (List.mem_cons_self x t)
      cases x with
      | obj e =>
          simp only [fixSubjects] at h
          rcases hfix : fixSubject i e with u | e2 <;> rw [hfix] at h
          · exact Except.noConfusion h
          · rcases hrest : fixSubjects (i + 1) t with u | lt <;> rw [hrest] at h
            · exact Except.noConfusion h
            · have hl2 : l2 = .obj e2 :: lt := (Except.ok.inj h).symm
              subst hl2
              obtain ⟨hlen, hpt⟩ :=
                ih (i + 1) lt (fun s hs => hall s (List.mem_cons_of_mem _ hs)) hrest
              refine ⟨by simp [hlen], ?_⟩
              intro k hk hk2
              cases k with
              | zero => exact ⟨e, e2, rfl, by simpa using hfix, rfl⟩
              | succ n =>
                  obtain ⟨e', e2', h1, h2, h3⟩ := hpt n (by simpa using hk)
                    (by simpa using hk2)
                  refine ⟨e', e2', h1, ?_, h3⟩
                  have harith : i + 1 + n = i + (n + 1) := by omega
                  rwa [harith] at h2
      | null => simp [Json.isObj] at hx
      | bool b => simp [Json.isObj] at hx
      | int n => simp [Json.isObj] at hx
      | float q => simp [Json.isObj] at hx
      | str s => simp [Json.isObj] at hx
      | arr a => simp [Json.isObj] at hx

/-- C6: the Subject Repair Engine never fails — an internal exception
makes `_validate_and_fix_subjects` return its input unchanged, and a
non-mapping input passes through — and for every subjects list of
mappings the output list has the same length and order (entry `k` is
either entry `k` of the input, when the loop aborted, or its repaired
form); non-mapping entries are dropped while the enumeration index still
advances over every entry. -/
theorem c6_subject_repair_shape :
    (∀ (entries : List (String × Json)) (l : List Json),
      objGetL entries "subjects" = some (.arr l) →
      (∀ s ∈ l, s.isObj = true) →
      ∃ l2, objGetJ (validateAndFixSubjects (.obj entries)) "subjects"
          = some (.arr l2) ∧
        l2.length = l.length ∧
        ∀ k (hk : k < l2.length) (hk2 : k < l.length),
          l2.get ⟨k, hk⟩ = l.get ⟨k, hk2⟩ ∨
          ∃ e e2, l.get ⟨k, hk2⟩ = .obj e ∧ fixSubject k e = .ok e2 ∧
            l2.get ⟨k, hk⟩ = .obj e2) ∧
    (∀ (i : Nat) (l : List Json),
      fixSubjects i l = fixEnum (objEntriesOnly (enumFromIdx i l))) ∧
    (∀ j : Json, j.isObj = false → validateAndFixSubjects j = j) := by
  refine ⟨?_, fun i l => fixSubjects_eq_fixEnum l i, ?_⟩
  · intro entries l hget hall
    simp only [validateAndFixSubjects, hget]
    rcases hfs : fixSubjects 0 l with u | l2
    · refine ⟨l, by simpa [objGetJ] using hget, rfl, ?_⟩
      intro k hk hk2
      left
      rfl
    · refine ⟨l2, by simp [objGetJ, objGetL_objSet_self], ?_, ?_⟩
      · exact (fixSubjects_ok_spec l 0 l2 hall hfs).1
      · intro k hk hk2
        right
        obtain ⟨e, e2, h1, h2, h3⟩ :=
          (fixSubjects_ok_spec l 0 l2 hall hfs).2 k hk hk2
        exact ⟨e, e2, h1, by simpa using h2, h3⟩
  · intro j hj
    cases j <;> simp_all [validateAndFixSubjects, Json.isObj]

theorem c6_subject_repair_shape_witness :
    (objGetL [("subjects", .arr [.obj [("subject_name", .str "MATH")], .obj []])]
        "subjects"
      = some (.arr [.obj [("subject_name", .str "MATH")], .obj []]) ∧
      (∀ s ∈ [Json.obj [("subject_name", .str "MATH")], Json.obj []],
        s.isObj = true)) ∧
    ∃ l2, objGetJ (validateAndFixSubjects (.obj [("subjects",
        .arr [.obj [("subject_name", .str "MATH")], .obj []])])) "subjects"
        = some (.arr l2) ∧
      l2.length = [Json.obj [("subject_name", .str "MATH")], Json.obj []].length ∧
      ∀ k (hk : k < l2.length)
        (hk2 : k < [Json.obj [("subject_name", .str "MATH")], Json.obj []].length),
        l2.get ⟨k, hk⟩
            = [Json.obj [("subject_name", .str "MATH")], Json.obj []].get ⟨k, hk2⟩ ∨
        ∃ e e2, [Json.obj [("subject_name", .str "MATH")],
            Json.obj []].get ⟨k, hk2⟩ = .obj e ∧
          fixSubject k e = .ok e2 ∧ l2.get ⟨k, hk⟩ = .obj e2 :=
  ⟨⟨rfl, by decide⟩,
   c6_subject_repair_shape.1 [("subjects",
     .arr [.obj [("subject_name", .str "MATH")], .obj []])]
     [Json.obj [("subject_name", .str "MATH")], Json.obj []] rfl (by decide)⟩

/-- C4 counterexample: a field whose value is the empty string is
non-null, yet `_calibrate_field`'s `not field.value` guard skips it, so
its confidence can stay below the floor after calibration. -/
theorem c4_empty_string_value_counterexample :
    (calibrateConfidence (mkRat 1 2)
      ⟨⟨⟨some "", mkRat 3 10, none⟩, none, none, none, none, none, none, none, none⟩,
       [], ⟨none, none, none, none, none, none, none⟩,
       ⟨none, none, none, none⟩⟩).candidate_details.name
      = ⟨some "", mkRat 3 10, none⟩ ∧
    (some "" : Option String) ≠ none ∧
    ¬(mkRat 1 2 ≤ mkRat 3 10) := ⟨rfl, by simp, by decide⟩

theorem calibrateField_spec (thr : ℚ) (t : String) (f : ExtractedField)
    (h1 : thr ≤ 1) (hf : f.confidence ≤ 1) :
    (calibrateField thr t f).confidence ≤ 1 ∧
    ((calibrateField thr t f).value ≠ none → (calibrateField thr t f).value ≠ some "" →
      thr ≤ (calibrateField thr t f).confidence) := by
  unfold calibrateField
  split
  · rename_i hskip
    refine ⟨hf, fun hv1 hv2 => ?_⟩
    rcases hskip with h | h
    · exact absurd h hv1
    · exact absurd h hv2
  · dsimp only
    constructor
    · split
      · rw [qMax_eq, qMin_eq]
        exact max_le (le_trans (min_le_left _ _) le_rfl) h1
      · rw [qMin_eq]
        exact min_le_left _ _
    · intro _ _
      split
      · rw [qMax_eq]
        exact le_max_right _ _
      · rename_i hnlt
        exact not_lt.mp hnlt

def candFields (c : CandidateDetails) : List (Option ExtractedField) :=
  [some c.name, c.father_name, c.mother_name, c.roll_number, c.registration_number,
   c.date_of_birth, c.exam_year, c.board_university, c.institution]

def subjFields (s : SubjectMark) : List (Option ExtractedField) :=
  [some s.subject_name, s.max_marks, s.max_credits, s.obtained_marks,
   s.obtained_credits, s.grade, s.remarks]

def overallFields (o : OverallResult) : List (Option ExtractedField) :=
  [o.total_marks, o.total_credits, o.percentage, o.cgpa, o.grade, o.division,
   o.result_status]

def docFields (di : DocumentInfo) : List (Option ExtractedField) :=
  [di.issue_date, di.issue_place, di.document_type, di.academic_session]

def optFields (l : List (Option ExtractedField)) : List ExtractedField :=
  l.filterMap id

/-- Every `ExtractedField` slot present in a `MarksheetData`, in the
order `calibrate_confidence` walks them. -/
def fieldsOf (d : MarksheetData) : List ExtractedField :=
  optFields (candFields d.candidate_details)
    ++ d.subjects.flatMap (fun s => optFields (subjFields s))
    ++ optFields (overallFields d.overall_result)
    ++ optFields (docFields d.document_info)

theorem optFields_map (g : ExtractedField → ExtractedField)
    (l : List (Option ExtractedField)) :
    optFields (l.map (Option.map g)) = (optFields l).map g := by
  induction l with
  | nil => rfl
  | cons x t ih =>
      cases x with
      | none => simpa [optFields, List.filterMap_cons] using ih
      | some a => simpa [optFields, List.filterMap_cons] using ih

theorem fieldsOf_calibrate_eq (thr : ℚ) (d : MarksheetData) :
    fieldsOf (calibrateConfidence thr d)
      = (optFields (candFields d.candidate_details)).map
          (calibrateField thr "candidate_detail")
        ++ d.subjects.flatMap
            (fun s => (optFields (subjFields s)).map (calibrateField thr "subject_mark"))
        ++ (optFields (overallFields d.overall_result)).map
            (calibrateField thr "overall_result")
        ++ (optFields (docFields d.document_info)).map
            (calibrateField thr "document_info") := by
  obtain ⟨⟨n, f1, f2, f3, f4, f5, f6, f7, f8⟩, subs, ⟨o1, o2, o3, o4, o5, o6, o7⟩,
    ⟨i1, i2, i3, i4⟩⟩ := d
  refine congrArg₂ (· ++ ·) (congrArg₂ (· ++ ·) (congrArg₂ (· ++ ·) ?_ ?_) ?_) ?_
  · exact optFields_map (calibrateField thr "candidate_detail")
      [some n, f1, f2, f3, f4, f5, f6, f7, f8]
  · show (subs.map (calibrateSubject thr)).flatMap _ = _
    rw [List.flatMap_map]
    congr 1
    funext s
    obtain ⟨sn, m1, m2, m3, m4, m5, m6⟩ := s
    exact optFields_map (calibrateField thr "subject_mark")
      [some sn, m1, m2, m3, m4, m5, m6]
  · exact optFields_map (calibrateField thr "overall_result")
      [o1, o2, o3, o4, o5, o6, o7]
  · exact optFields_map (calibrateField thr "document_info") [i1, i2, i3, i4]

/-- C4 (amended): after calibration with a configured floor `thr ≤ 1`
(default 0.5), every field whose value is non-null AND non-empty has
confidence at least `thr`, no confidence exceeds 1.0 (given the model
invariant that input confidences are at most 1.0), and a field whose
calibrated confidence would fall below the floor is raised to exactly
the floor; fields whose value is null or the empty string are left
untouched, so a non-null empty-string value may keep a confidence below
the floor. -/
theorem c4_min_threshold_after_calibration (thr : ℚ) (d : MarksheetData)
    (h1 : thr ≤ 1) (hf : ∀ f ∈ fieldsOf d, f.confidence ≤ 1) :
    (∀ f ∈ fieldsOf (calibrateConfidence thr d),
      f.confidence ≤ 1 ∧ (f.value ≠ none → f.value ≠ some "" → thr ≤ f.confidence)) ∧
    (∀ (t : String) (f : ExtractedField), f.value ≠ none → f.value ≠ some "" →
      min 1 (f.confidence * calibrationFactor t) < thr →
      (calibrateField thr t f).confidence = thr) := by
  constructor
  · intro f hmem
    rw [fieldsOf_calibrate_eq] at hmem
    rcases List.mem_append.mp hmem with hmem2 | hd
    · rcases List.mem_append.mp hmem2 with hmem3 | hc
      · rcases List.mem_append.mp hmem3 with ha | hb
        · obtain ⟨f0, hf0, rfl⟩ := List.mem_map.mp ha
          refine calibrateField_spec _ _ _ h1 (hf f0 ?_)
          simp only [fieldsOf, List.mem_append]
          exact Or.inl (Or.inl (Or.inl hf0))
        · obtain ⟨s, hs, hmem4⟩ := List.mem_flatMap.mp hb
          obtain ⟨f0, hf0, rfl⟩ := List.mem_map.mp hmem4
          refine calibrateField_spec _ _ _ h1 (hf f0 ?_)
          simp only [fieldsOf, List.mem_append, List.mem_flatMap]
          exact Or.inl (Or.inl (Or.inr ⟨s, hs, hf0⟩))
      · obtain ⟨f0, hf0, rfl⟩ := List.mem_map.mp hc
        refine calibrateField_spec _ _ _ h1 (hf f0 ?_)
        simp only [fieldsOf, List.mem_append]
        exact Or.inl (Or.inr hf0)
    · obtain ⟨f0, hf0, rfl⟩ := List.mem_map.mp hd
      refine calibrateField_spec _ _ _ h1 (hf f0 ?_)
      simp only [fieldsOf, List.mem_append]
      exact Or.inr hf0
  · intro t f hv1 hv2 hlt
    unfold calibrateField
    rw [if_neg (by push_neg; exact ⟨hv1, hv2⟩)]
    dsimp only
    have hcal : qMin 1 (qMul f.confidence (calibrationFactor t))
        = min 1 (f.confidence * calibrationFactor t) := by
      rw [qMin_eq, qMul_eq]
    rw [hcal, if_pos hlt, qMax_eq]
    exact max_eq_right (le_of_lt hlt)

theorem c4_min_threshold_after_calibration_witness :
    ((mkRat 1 2 : ℚ) ≤ 1 ∧
      (∀ f ∈ fieldsOf ⟨⟨⟨some "Bob", mkRat 2 5, none⟩, none, none, none, none, none,
          none, none, none⟩, [], ⟨none, none, none, none, none, none, none⟩,
          ⟨none, none, none, none⟩⟩, f.confidence ≤ 1)) ∧
    (∀ f ∈ fieldsOf (calibrateConfidence (mkRat 1 2)
        ⟨⟨⟨some "Bob", mkRat 2 5, none⟩, none, none, none, none, none,
          none, none, none⟩, [], ⟨none, none, none, none, none, none, none⟩,
          ⟨none, none, none, none⟩⟩),
      f.confidence ≤ 1 ∧ (f.value ≠ none → f.value ≠ some "" →
        mkRat 1 2 ≤ f.confidence)) ∧
    (∀ (t : String) (f : ExtractedField), f.value ≠ none → f.value ≠ some "" →
      min 1 (f.confidence * calibrationFactor t) < mkRat 1 2 →
      (calibrateField (mkRat 1 2) t f).confidence = mkRat 1 2) :=
  ⟨⟨by decide, by decide⟩,
   c4_min_threshold_after_calibration (mkRat 1 2)
     ⟨⟨⟨some "Bob", mkRat 2 5, none⟩, none, none, none, none, none, none, none, none⟩,
      [], ⟨none, none, none, none, none, none, none⟩, ⟨none, none, none, none⟩⟩
     (by decide) (by decide)⟩

/-- The full-confidence consistency-check input: one subject with
obtained marks "100", stated total "100" at confidence 1.0. -/
def c5FullConfData : MarksheetData :=
  ⟨⟨⟨none, 0, none⟩, none, none, none, none, none, none, none, none⟩,
   [⟨⟨none, 0, none⟩, none, none, some ⟨some "100", mkRat 1 2, none⟩, none, none, none⟩],
   ⟨some ⟨some "100", mkRat 1 1, none⟩, none, none, none, none, none, none⟩,
   ⟨none, none, none, none⟩⟩

/-- C5 counterexample: with the stated total at confidence 1.0 and a
matching subject sum, the boost is capped at 1.0 — the post-check
confidence equals the pre-check value, not strictly greater. -/
theorem c5_no_strict_increase_at_full_confidence :
    statedTotal c5FullConfData = some (mkRat 100 1) ∧
    obtainedSum c5FullConfData.subjects = mkRat 100 1 ∧
    qDiv (qAbs (qSub (obtainedSum c5FullConfData.subjects) (mkRat 100 1)))
        (mkRat 100 1) < mkRat 1 20 ∧
    c5FullConfData.overall_result.total_marks = some ⟨some "100", mkRat 1 1, none⟩ ∧
    (checkMarksConsistency c5FullConfData).overall_result.total_marks
      = some ⟨some "100", mkRat 1 1, none⟩ ∧
    ¬(mkRat 1 1 < mkRat 1 1) :=
  ⟨rfl, rfl, by decide, rfl, rfl, by decide⟩

/-- C5 (amended): the marks consistency check uses the code's test
`abs(sum - total)/total < 0.05` (shown equivalent to the rational
relative-difference comparison).  When the stated total parses: a zero
total raises `ZeroDivisionError`, swallowed — no change; a failing test
leaves everything unchanged; a passing test (with a non-empty subject
list) multiplies the total's confidence by 1.1 capped at 1.0 — never
lower, and strictly greater exactly when the pre-check confidence lies
strictly between 0 and 1 — and multiplies every present subject
`obtained_marks` confidence by 1.05 capped at 1.0. -/
theorem c5_marks_consistency (d : MarksheetData) (t : ℚ)
    (hst : statedTotal d = some t) :
    (qDiv (qAbs (qSub (obtainedSum d.subjects) t)) t < mkRat 1 20
        ↔ |obtainedSum d.subjects - t| / t < 1 / 20) ∧
    (t = 0 → checkMarksConsistency d = d) ∧
    (t ≠ 0 → ¬(qDiv (qAbs (qSub (obtainedSum d.subjects) t)) t < mkRat 1 20) →
      checkMarksConsistency d = d) ∧
    (∀ (s : SubjectMark) (f : ExtractedField), s.obtained_marks = some f →
      (boostSubject s).obtained_marks
        = some ⟨f.value, qMin 1 (qMul f.confidence (mkRat 21 20)), f.boundingBox⟩) ∧
    (t ≠ 0 → qDiv (qAbs (qSub (obtainedSum d.subjects) t)) t < mkRat 1 20 →
      d.subjects ≠ [] →
      (checkMarksConsistency d).subjects = d.subjects.map boostSubject ∧
      ∀ f, d.overall_result.total_marks = some f →
        (checkMarksConsistency d).overall_result.total_marks
          = some ⟨f.value, qMin 1 (qMul f.confidence (mkRat 11 10)), f.boundingBox⟩ ∧
        (0 ≤ f.confidence → f.confidence ≤ 1 →
          f.confidence ≤ qMin 1 (qMul f.confidence (mkRat 11 10))) ∧
        (0 < f.confidence → f.confidence < 1 →
          f.confidence < qMin 1 (qMul f.confidence (mkRat 11 10)))) := by
  have hm20 : (mkRat 1 20 : ℚ) = 1 / 20 := by
    rw [Rat.mkRat_eq_div]
    norm_num
  have hm1110 : (mkRat 11 10 : ℚ) = 11 / 10 := by
    rw [Rat.mkRat_eq_div]
    norm_num
  refine ⟨?_, ?_, ?_, ?_, ?_⟩
  · rw [qDiv_eq, qAbs_eq, qSub_eq, hm20]
  · intro h0
    subst h0
    unfold checkMarksConsistency
    rw [hst]
    split
    · rfl
    · simp
  · intro ht hcond
    unfold checkMarksConsistency
    rw [hst]
    split
    · rfl
    · simp [ht, hcond]
  · intro s f hf
    unfold boostSubject
    rw [hf]
  · intro ht hcond hne
    have hie : d.subjects.isEmpty = false := by
      cases hs : d.subjects with
      | nil => exact absurd hs hne
      | cons a l => simp [hs]
    have hck : checkMarksConsistency d
        = ⟨d.candidate_details, d.subjects.map boostSubject,
           boostTotalMarks d.overall_result, d.document_info⟩ := by
      unfold checkMarksConsistency
      rw [hst, hie]
      simp [ht, hcond]
    constructor
    · rw [hck]
    · intro f hf
      refine ⟨?_, ?_, ?_⟩
      · rw [hck]
        show (boostTotalMarks d.overall_result).total_marks = _
        unfold boostTotalMarks
        rw [hf]
      · intro h0 h1
        rw [qMin_eq, qMul_eq, hm1110]
        exact le_min h1 (le_mul_of_one_le_right h0 (by norm_num))
      · intro h0 h1
        rw [qMin_eq, qMul_eq, hm1110]
        exact lt_min h1 (lt_mul_of_one_lt_right h0 (by norm_num))

/-- The spec's consistency-check example: subjects with obtained marks
40/35/25 at confidence 0.8 and stated total "100" at confidence 0.8. -/
def c5SpecExampleData : MarksheetData :=
  ⟨⟨⟨none, 0, none⟩, none, none, none, none, none, none, none, none⟩,
   [⟨⟨none, 0, none⟩, none, none, some ⟨some "40", mkRat 4 5, none⟩, none, none, none⟩,
    ⟨⟨none, 0, none⟩, none, none, some ⟨some "35", mkRat 4 5, none⟩, none, none, none⟩,
    ⟨⟨none, 0, none⟩, none, none, some ⟨some "25", mkRat 4 5, none⟩, none, none, none⟩],
   ⟨some ⟨some "100", mkRat 4 5, none⟩, none, none, none, none, none, none⟩,
   ⟨none, none, none, none⟩⟩

theorem c5_marks_consistency_witness :
    (statedTotal c5SpecExampleData = some (mkRat 100 1) ∧
      (mkRat 100 1 : ℚ) ≠ 0 ∧
      qDiv (qAbs (qSub (obtainedSum c5SpecExampleData.subjects) (mkRat 100 1)))
          (mkRat 100 1) < mkRat 1 20 ∧
      c5SpecExampleData.subjects ≠ []) ∧
    ((checkMarksConsistency c5SpecExampleData).subjects
        = c5SpecExampleData.subjects.map boostSubject ∧
      ∀ f, c5SpecExampleData.overall_result.total_marks = some f →
        (checkMarksConsistency c5SpecExampleData).overall_result.total_marks
          = some ⟨f.value, qMin 1 (qMul f.confidence (mkRat 11 10)), f.boundingBox⟩ ∧
        (0 ≤ f.confidence → f.confidence ≤ 1 →
          f.confidence ≤ qMin 1 (qMul f.confidence (mkRat 11 10))) ∧
        (0 < f.confidence → f.confidence < 1 →
          f.confidence < qMin 1 (qMul f.confidence (mkRat 11 10)))) :=
  ⟨⟨rfl, by decide, by decide, fun h => List.noConfusion h⟩,
   (c5_marks_consistency c5SpecExampleData (mkRat 100 1) rfl).2.2.2.2
     (by decide) (by decide) (fun h => List.noConfusion h)⟩
